import Mathlib

/-
  Verification development for the smart-farm-AI repository.

  The Python sources are shallowly embedded:
  * machine floats are modelled by `FVal` (exact rationals plus the special
    values plus-infinity, minus-infinity and NaN);
  * pandas DataFrames are modelled by a header list plus row-major cell lists;
  * fallible Python code (raising exceptions) returns `Except String`;
  * the external SARIMAX fitting routine from statsmodels is abstracted as an
    `Except`-valued parameter, universally quantified in the theorems.
-/

namespace SmartFarm

/-- A Python float: an exact finite rational, or one of the IEEE special
values. Finite arithmetic is modelled exactly (no rounding). -/
inductive FVal where
  | fin (q : ℚ)
  | pinf
  | ninf
  | nan
deriving DecidableEq, Repr

namespace FVal

/-- Multiplication of a float by a finite rational, following IEEE sign
rules for the infinities and NaN propagation. Embeds the Python expression
`v * (1.0 + rate)` with a finite `rate`. -/
def mulQ : FVal → ℚ → FVal
  | fin a, r => fin (a * r)
  | pinf, r => if 0 < r then pinf else if r < 0 then ninf else nan
  | ninf, r => if 0 < r then ninf else if r < 0 then pinf else nan
  | nan, _ => nan

/-- Addition of a finite rational to a float (`v + delta`). -/
def addQ : FVal → ℚ → FVal
  | fin a, d => fin (a + d)
  | pinf, _ => pinf
  | ninf, _ => ninf
  | nan, _ => nan

/-- The pandas `notna` test: everything except NaN counts as present
(the infinities are not missing values). -/
def notna : FVal → Bool
  | nan => false
  | _ => true

/-- Finiteness of a float (neither NaN nor an infinity). -/
def isFinite : FVal → Bool
  | fin _ => true
  | _ => false

end FVal

/-! ## forecast_from_snapshot.py — the scenario projector -/

/-- Successive values appended by the compound branch of
`build_forecasts_for_value`: each step multiplies the running value by
`1.0 + rate`. -/
def compoundVals (rate : ℚ) (v : FVal) : ℕ → List FVal
  | 0 => []
  | n + 1 =>
    let v1 := v.mulQ (1 + rate)
    v1 :: compoundVals rate v1 n

/-- Successive values appended by the linear branch of
`build_forecasts_for_value`: each step adds `delta` to the running value. -/
def linearVals (delta : ℚ) (v : FVal) : ℕ → List FVal
  | 0 => []
  | n + 1 =>
    let v1 := v.addQ delta
    v1 :: linearVals delta v1 n

/-- Embedding of `build_forecasts_for_value` from
`src/forecast_from_snapshot.py`: starting from `hist = [value]`,
`years = [0]`, the loop over `i in range(1, periods+1)` appends the updated
running value and offset `i`; the compound branch is taken exactly when
`mode == "compound"`, anything else takes the linear branch. -/
def build_forecasts_for_value (value : FVal) (periods : ℕ) (mode : String)
    (rate : ℚ) (delta : ℚ) : List ℕ × List FVal :=
  if mode = "compound" then
    (List.range (periods + 1), value :: compoundVals rate value periods)
  else
    (List.range (periods + 1), value :: linearVals delta value periods)

/-! ## Python string and cell primitives -/

/-- Python whitespace characters, the class matched by `\s` and stripped by
`str.strip()`. -/
def isWS (c : Char) : Bool :=
  c = ' ' || c = '\t' || c = '\n' || c = '\r' || c = '\x0b' || c = '\x0c'

/-- Embedding of Python `str.strip()` on a character list. -/
def pyStripList (l : List Char) : List Char :=
  ((l.dropWhile isWS).reverse.dropWhile isWS).reverse

/-- Value of a list of decimal digit characters. -/
def digitsToNat (l : List Char) : ℕ :=
  l.foldl (fun a c => 10 * a + (c.toNat - 48)) 0

/-- Parse an unsigned decimal literal, optionally with a fractional part
(`"12"`, `"12.5"`, `".5"`, `"12."`). Returns `none` on anything else. -/
def parseUnsigned (l : List Char) : Option ℚ :=
  let ip := l.takeWhile Char.isDigit
  let rest := l.dropWhile Char.isDigit
  match rest with
  | [] => if ip.isEmpty then none else some (digitsToNat ip)
  | '.' :: fp =>
    if fp.all Char.isDigit && !(ip.isEmpty && fp.isEmpty) then
      some ((digitsToNat ip : ℚ) + (digitsToNat fp : ℚ) / (10 : ℚ) ^ fp.length)
    else none
  | _ => none

/-- Embedding of the Python builtin `float(str)`: strips whitespace, reads an
optional sign, accepts the special spellings for the infinities and NaN, and
otherwise a decimal literal; `none` models the `ValueError` raise. -/
def parsePyFloat (s : String) : Option FVal :=
  let l := pyStripList s.toList
  let sgnNeg : Bool := match l with | '-' :: _ => true | _ => false
  let body : List Char := match l with
    | '+' :: t => t
    | '-' :: t => t
    | t => t
  let low := body.map Char.toLower
  if low = "inf".toList || low = "infinity".toList then
    some (if sgnNeg then FVal.ninf else FVal.pinf)
  else if low = "nan".toList then
    some FVal.nan
  else
    (parseUnsigned body).map fun q => FVal.fin (if sgnNeg then -q else q)

/-- One cell of a pandas DataFrame: either a float (as loaded for a numeric
column, with NaN for a missing cell) or a string. -/
inductive Cell where
  | fv (v : FVal)
  | str (s : String)
deriving DecidableEq, Repr

/-- The Python builtin `float` applied to a cell value: floats (NaN and the
infinities included) pass through, strings are parsed, and an unparsable
string raises `ValueError`. -/
def pyFloat : Cell → Except String FVal
  | .fv v => .ok v
  | .str s =>
    match parsePyFloat s with
    | some v => .ok v
    | none => .error "ValueError: could not convert string to float"

/-- One output row of the snapshot projector (`rows.append({...})` in
`run`). -/
structure SnapRow where
  state : String
  year : ℤ
  value : FVal
  rtype : String
deriving DecidableEq, Repr

/-- Embedding of one iteration of the per-state loop in `run`
(`src/forecast_from_snapshot.py`, lines 138-152): `float(row[metric])` is
attempted, any exception skips the row (`continue`, modelled as `ok none`);
otherwise the scenario series is built and emitted as history plus forecast
rows. The body raises no exception of its own. -/
def runRow (state : String) (metricCell : Cell) (baseYear : ℤ) (periods : ℕ)
    (mode : String) (rate delta : ℚ) : Except String (Option (List SnapRow)) :=
  match pyFloat metricCell with
  | .error _ => .ok none
  | .ok val =>
    let yo := build_forecasts_for_value val periods mode rate delta
    let years := yo.1.map fun y => baseYear + (y : ℤ)
    .ok (some (years.enum.map fun p =>
      { state := state
        year := p.2
        value := yo.2.getD p.1 FVal.nan
        rtype := if p.1 = 0 then "history" else "forecast" }))

/-! ## process_data.py — entity-name normalization -/

/-- Embedding of `re.sub(r"\s+", " ", s)`: every whitespace run collapses
to a single space. The flag records whether the previous character was
whitespace (run continuation). -/
def collapseGo : Bool → List Char → List Char
  | _, [] => []
  | prevWS, c :: rest =>
    if isWS c then
      if prevWS then collapseGo true rest else ' ' :: collapseGo true rest
    else c :: collapseGo false rest

/-- Collapse internal whitespace runs to single spaces. -/
def collapseWS (l : List Char) : List Char :=
  collapseGo false l

/-- How Python `str.title()` maps one character: an alphabetic character
is uppercased when the previous character was not alphabetic and
lowercased otherwise; any other character is unchanged. -/
def titleChar (prevAlpha : Bool) (c : Char) : Char :=
  if c.isAlpha then (if prevAlpha then c.toLower else c.toUpper) else c

/-- Embedding of Python `str.title()` for ASCII. The flag records whether
the previous character was alphabetic. -/
def titleGo : Bool → List Char → List Char
  | _, [] => []
  | prevAlpha, c :: rest => titleChar prevAlpha c :: titleGo c.isAlpha rest

/-- Python `str.title()`. -/
def pyTitle (l : List Char) : List Char :=
  titleGo false l

/-- The pandas `pd.isna` test on a cell. -/
def pyIsNa : Cell → Bool
  | .fv .nan => true
  | _ => false

/-- The Python builtin `str` on a cell value. The rendering of numeric
labels approximates Python float repr with decimal notation; no theorem
depends on it. -/
def pyStr : Cell → String
  | .str s => s
  | .fv (.fin q) => toString q
  | .fv .pinf => "inf"
  | .fv .ninf => "-inf"
  | .fv .nan => "nan"

/-- Embedding of `normalize_state` (`src/process_data.py`): missing labels
become "Unknown"; any other label is stripped, has internal whitespace runs
collapsed to one space, and is title-cased. -/
def normalize_state (c : Cell) : String :=
  if pyIsNa c then "Unknown"
  else String.mk (pyTitle (collapseWS (pyStripList (pyStr c).toList)))

/-- Checker: the first character is not whitespace. -/
def headNotWS : List Char → Bool
  | [] => true
  | c :: _ => !isWS c

/-- Checker: the last character is not whitespace. -/
def lastNotWS : List Char → Bool
  | [] => true
  | [c] => !isWS c
  | _ :: c :: t => lastNotWS (c :: t)

/-- Checker: no two adjacent whitespace characters. -/
def noDoubleWS : List Char → Bool
  | [] => true
  | [_] => true
  | a :: b :: t => !(isWS a && isWS b) && noDoubleWS (b :: t)

/-- Checker for title-cased text: every alphabetic character at a word
start is fixed by uppercasing and every later alphabetic character is fixed
by lowercasing. -/
def isTitledGo : Bool → List Char → Bool
  | _, [] => true
  | prevAlpha, c :: rest =>
    (if c.isAlpha then
      (if prevAlpha then c.toLower = c else c.toUpper = c) else true)
    && isTitledGo c.isAlpha rest

/-- Checker: the text is title-cased. -/
def isTitled (l : List Char) : Bool :=
  isTitledGo false l

/-! ## process_data.py — DataFrame model and shape normalization

A pandas DataFrame is a header (column labels) plus row-major cells. A
column has numeric dtype when every cell of the column is a float. -/

/-- A DataFrame: column labels and row-major cells. -/
structure DF where
  header : List String
  rows : List (List Cell)
deriving DecidableEq, Repr

/-- Cell of a row at a column position (missing positions read as NaN). -/
def cellAt (r : List Cell) (i : ℕ) : Cell :=
  r.getD i (Cell.fv FVal.nan)

/-- Index of the first column with the given label. -/
def colIdx (df : DF) (name : String) : ℕ :=
  (df.header.findIdx? (· = name)).getD 0

/-- The cells of the first column with the given label. -/
def colCells (df : DF) (name : String) : List Cell :=
  df.rows.map fun r => cellAt r (colIdx df name)

/-- Whether a cell holds a float. -/
def isNumericCell : Cell → Bool
  | .fv _ => true
  | .str _ => false

/-- The pandas `is_numeric_dtype` test for a column. -/
def isNumericCol (df : DF) (name : String) : Bool :=
  (colCells df name).all isNumericCell

/-- Rename column labels by a function (pandas `rename(columns=...)`). -/
def renameCols (df : DF) (f : String → String) : DF :=
  { df with header := df.header.map f }

/-- Select columns by label, first match per label (`df[[...]]`). -/
def selectCols (df : DF) (names : List String) : DF :=
  { header := names,
    rows := df.rows.map fun r => names.map fun n => cellAt r (colIdx df n) }

/-- Append a constant column (`df[name] = const`). -/
def addCol (df : DF) (name : String) (c : Cell) : DF :=
  { header := df.header ++ [name], rows := df.rows.map fun r => r ++ [c] }

/-- The pandas `reset_index()`: prepend an integer index column. -/
def resetIndex (df : DF) : DF :=
  { header := "index" :: df.header,
    rows := df.rows.enum.map fun p => Cell.fv (FVal.fin p.1) :: p.2 }

/-- Character class `\w` (ASCII word character). -/
def isWordChar (c : Char) : Bool :=
  c.isAlphanum || c = '_'

/-- One character of `re.sub(r"[^\w\s]", "_", label)`. -/
def stdChar (c : Char) : Char :=
  if isWordChar c || isWS c then c else '_'

/-- Embedding of the column renamer in `standardize_columns`: non-word
non-space characters become underscores, then strip and lowercase. -/
def stdLabel (s : String) : String :=
  String.mk ((pyStripList (s.toList.map stdChar)).map Char.toLower)

/-- Embedding of `standardize_columns`. -/
def standardize_columns (df : DF) : DF :=
  renameCols df stdLabel

/-- Test for `^\s*\d{4}\s*$`. -/
def isYear4 (l : List Char) : Bool :=
  let a := l.dropWhile isWS
  let d := a.takeWhile Char.isDigit
  d.length = 4 && (a.dropWhile Char.isDigit).all isWS

/-- Test for a 4-digit year, a dash or slash, then two digits, with
optional surrounding whitespace. -/
def isYearRange (l : List Char) : Bool :=
  let a := l.dropWhile isWS
  let d := a.takeWhile Char.isDigit
  d.length = 4 &&
    (match a.dropWhile Char.isDigit with
     | sep :: r2 =>
       (sep = '-' || sep = '/') && (r2.takeWhile Char.isDigit).length = 2
         && (r2.dropWhile Char.isDigit).all isWS
     | [] => false)

/-- A label that looks like a year column. -/
def isYearLabel (s : String) : Bool :=
  isYear4 s.toList || isYearRange s.toList

/-- Embedding of `detect_year_columns`. -/
def detect_year_columns (cols : List String) : List String :=
  cols.filter isYearLabel

/-- Whether `pat` starts `hay`. -/
def startsWith : List Char → List Char → Bool
  | _, [] => true
  | [], _ :: _ => false
  | h :: ht, p :: pt => h = p && startsWith ht pt

/-- Whether `pat` occurs inside `hay` (substring search). -/
def hasSub : List Char → List Char → Bool
  | [], pat => pat.isEmpty
  | c :: t, pat => startsWith (c :: t) pat || hasSub t pat

/-- Lowercased character list of a string. -/
def lcList (s : String) : List Char :=
  s.toList.map Char.toLower

/-- Case-insensitive `re.search` for an alternation of literal patterns. -/
def searchCI (s : String) (pats : List String) : Bool :=
  pats.any fun p => hasSub (lcList s) (lcList p)

/-- Case-insensitive whole-word search (`\bpat\b`), scanning with the
word-character status of the previous character. -/
def hasWordGo (pat : List Char) : Bool → List Char → Bool
  | _, [] => false
  | prevW, c :: t =>
    (!prevW && startsWith (c :: t) pat &&
      (match (c :: t).drop pat.length with
       | [] => true
       | d :: _ => !isWordChar d))
    || hasWordGo pat (isWordChar c) t

/-- Case-insensitive `re.search(r"\bpat\b", s)`. -/
def hasWordCI (s : String) (pat : String) : Bool :=
  hasWordGo (lcList pat) false (lcList s)

/-- First run of four consecutive digits (`str.extract(r"(\d{4})")`). -/
def extract4 : List Char → Option ℕ
  | [] => none
  | c :: t =>
    if (List.take 4 (c :: t)).length = 4 && (List.take 4 (c :: t)).all Char.isDigit then
      some (digitsToNat (List.take 4 (c :: t)))
    else extract4 t

/-- The pandas `pd.to_numeric(..., errors="coerce")` on one cell. -/
def pyToNumeric : Cell → FVal
  | .fv v => v
  | .str s =>
    match parsePyFloat s with
    | some v => v
    | none => FVal.nan

/-- The pandas `notna` test on a cell. -/
def cellNotNa : Cell → Bool
  | .fv v => v.notna
  | .str _ => true

/-- Float content of a cell (after `to_numeric` every cell is a float). -/
def cellFVal : Cell → FVal
  | .fv v => v
  | .str _ => FVal.nan

/-- String content of a cell. -/
def cellStr : Cell → String
  | .str s => s
  | .fv _ => ""

/-- Python `int(float)`: truncation toward zero; NaN and the infinities
raise (`astype(int)` cannot convert them). -/
def fvalToIntTrunc : FVal → Option ℤ
  | .fin q => some (Int.tdiv q.num (q.den : ℤ))
  | _ => none

/-- The `astype(int)` cast of the year column, row by row, paired with the
surviving row: any non-finite year raises (`none`). -/
def astypeIntPairs : List (List Cell) → ℕ → Option (List (List Cell × ℤ))
  | [], _ => some []
  | r :: t, yi =>
    match fvalToIntTrunc (cellFVal (cellAt r yi)) with
    | none => none
    | some y => (astypeIntPairs t yi).map fun rest => (r, y) :: rest

/-- Embedding of `pd.melt(df, id_vars, value_vars, var_name="year",
value_name="value")`: pandas raises when `value_name` collides with an
existing column; output rows are stacked per value column. -/
def pdMelt (df : DF) (idVars valueVars : List String) : Except String DF :=
  if df.header.contains "value" then
    .error "value_name (value) cannot match an element in the DataFrame columns."
  else
    .ok { header := idVars ++ ["year", "value"],
          rows := valueVars.flatMap fun v =>
            df.rows.map fun r =>
              (idVars.map fun n => cellAt r (colIdx df n))
                ++ [Cell.str v, cellAt r (colIdx df v)] }

/-- Embedding of `melt_wide_to_long` (`src/process_data.py`): melt, extract
the first 4-digit run of the year label, drop rows without one, and store
the year as an integer. Duplicate "year" columns (when "year" is an id
column) make the subsequent `df_long["year"]` access raise. -/
def melt_wide_to_long (df : DF) (yearCols idVars : List String) :
    Except String DF :=
  match pdMelt df idVars yearCols with
  | .error e => .error e
  | .ok m =>
    if idVars.contains "year" then
      .error "AttributeError: ambiguous year columns"
    else
      let yi := idVars.length
      .ok { header := m.header,
            rows := m.rows.filterMap fun r =>
              (extract4 (cellStr (cellAt r yi)).toList).map fun n =>
                r.set yi (Cell.fv (FVal.fin n)) }

/-- The fallback year-role candidate of `try_make_long` (lines 148-152):
the first column matching `\byear\b|\byr\b` case-insensitively or consisting
of exactly four digits. -/
def fallbackYearCand (cols : List String) : Option String :=
  cols.find? fun c =>
    hasWordCI c "year" || hasWordCI c "yr"
      || (c.toList.length = 4 && c.toList.all Char.isDigit)

/-- The fallback value-role candidate of `try_make_long` (lines 153-158):
the loop keeps overwriting `value_cand` with each numeric column and stops
at the first one different from the year candidate, so the result is the
first numeric column different from the year candidate if one exists, and
otherwise the last numeric column (possibly the year candidate itself). -/
def fallbackValueCand (df0 : DF) (yearCand : Option String) : Option String :=
  let nums := df0.header.filter fun c => isNumericCol df0 c
  match nums.find? (fun c => if yearCand = some c then false else true) with
  | some c => some c
  | none => nums.getLast?

/-- The fallback branch of `try_make_long` (lines 146-177): pick year and
value candidates, rename them (a Python dict literal with two equal keys
keeps only the later entry), locate or synthesize a state column, coerce
and drop rows, and return the three canonical columns; an empty result
falls through to the give-up return of the standardized frame. -/
def tmlFallback (df0 : DF) : Except String DF :=
  match fallbackYearCand df0.header, fallbackValueCand df0 (fallbackYearCand df0.header) with
  | none, _ => .ok df0
  | _, none => .ok df0
  | some yc, some vc =>
    if yc = "" ∨ vc = "" then .ok df0 else
    let dfT := renameCols df0 fun l => if l = vc then "value" else if l = yc then "year" else l
    let dfT2 :=
      match df0.header.find? (fun c => searchCI c ["state", "region", "area", "name"]) with
      | some sc => renameCols dfT fun l => if l = sc then "state" else l
      | none => addCol dfT "state" (Cell.str "unknown")
    if ¬ dfT2.header.contains "year" then .error "KeyError: year"
    else
      let yi := colIdx dfT2 "year"
      let vi := colIdx dfT2 "value"
      let rows1 := dfT2.rows.map fun r =>
        (r.set yi (Cell.fv (pyToNumeric (cellAt r yi)))).set vi
          (Cell.fv (pyToNumeric (cellAt r vi)))
      let rows2 := rows1.filter fun r =>
        (cellFVal (cellAt r yi)).notna && (cellFVal (cellAt r vi)).notna
      if rows2.isEmpty then .ok df0
      else
        match astypeIntPairs rows2 yi with
        | none => .error "ValueError: cannot convert non-finite values to integer"
        | some pairs =>
          if dfT2.header.contains "state" then
            .ok (selectCols
              { header := dfT2.header,
                rows := pairs.map fun p => p.1.set yi (Cell.fv (FVal.fin p.2)) }
              ["state", "year", "value"])
          else .error "KeyError: state"

/-- The post-melt part of the wide-format branch of `try_make_long`
(lines 111-144): locate the state column, ensure a value column, and
select or coerce the canonical columns, falling back if that fails. -/
def tmlWideFinish (df0 : DF) (idVars : List String) (long0 : DF) :
    Except String DF :=
    let stateCol :=
      match idVars.find? (fun c => searchCI c ["state", "region", "area", "name", "unit"]) with
      | some c => c
      | none => idVars.getD 0 ""
    let long1 :=
      if stateCol ≠ "" then
        renameCols long0 fun l => if l = stateCol then "state" else l
      else addCol long0 "state" (Cell.str "unknown")
    let long2 :=
      if long1.header.contains "value" then long1
      else
        match (long1.header.filter fun c =>
            c ≠ "state" && c ≠ "year" && isNumericCol long1 c).head? with
        | some c => renameCols long1 fun l => if l = c then "value" else l
        | none => long1
    if ["state", "year", "value"].all (long2.header.contains ·) then
      .ok (selectCols long2 ["state", "year", "value"])
    else
      if long2.header.contains "year" then
        match (long2.header.filter fun c =>
            isNumericCol long2 c && c ≠ "year").head? with
        | some c =>
          let long3 := renameCols long2 fun l => if l = c then "value" else l
          let long4 :=
            if long3.header.contains "state" then long3
            else addCol long3 "state" (Cell.str "unknown")
          .ok (selectCols long4 ["state", "year", "value"])
        | none => tmlFallback df0
      else tmlFallback df0

/-- The wide-format branch of `try_make_long` (lines 102-144) applied after
year columns were detected. -/
def tmlWide (df0 : DF) (yearCols : List String) : Except String DF :=
  let idVars0 := df0.header.filter fun c => ¬ yearCols.contains c
  let dfR := if idVars0.isEmpty then resetIndex df0 else df0
  let idVars := if idVars0.isEmpty then ["index"] else idVars0
  match melt_wide_to_long dfR yearCols idVars with
  | .error e => .error e
  | .ok long0 => tmlWideFinish df0 idVars long0

/-- Embedding of `try_make_long` (`src/process_data.py`): standardize the
column labels; if a "year" column exists try to complete the long layout
directly; otherwise detect wide year columns and melt; otherwise use the
fallback candidates; give up by returning the standardized frame. -/
def try_make_long (df : DF) : Except String DF :=
  let df0 := standardize_columns df
  let df1 :=
    if df0.header.contains "year" then
      let dfa :=
        if df0.header.contains "value" then df0
        else
          match ["availability", "extraction", "amount", "quantity"].find?
              (fun c => df0.header.contains c) with
          | some c => renameCols df0 fun l => if l = c then "value" else l
          | none =>
            match (df0.header.filter fun c =>
                isNumericCol df0 c && c ≠ "year").head? with
            | some c => renameCols df0 fun l => if l = c then "value" else l
            | none => df0
      if dfa.header.contains "state" then dfa
      else
        match dfa.header.find? (fun c =>
            searchCI c ["state", "region", "area", "name", "unit"]) with
        | some c => renameCols dfa fun l => if l = c then "state" else l
        | none => dfa
    else df0
  if df0.header.contains "year"
      && ["state", "year", "value"].all (df1.header.contains ·) then
    .ok (selectCols df1 ["state", "year", "value"])
  else
    let yearCols := detect_year_columns df1.header
    if ¬ yearCols.isEmpty then tmlWide df1 yearCols
    else tmlFallback df1

/-- One cleaned output record of `process_all`. -/
structure Rec where
  state : String
  year : ℤ
  value : FVal
  src : String
deriving DecidableEq, Repr

/-- The tail of the per-file body of `process_all` (lines 226-234): drop
rows with a missing year or value, skip the file when nothing remains,
cast the year column to integers (raising on non-finite years), and emit
the cleaned records. -/
def finalizeRecs (src : String) (long5 : DF) : Option (List Rec) :=
  if ¬ long5.header.contains "year" then none
  else
    let yi2 := colIdx long5 "year"
    let vi := colIdx long5 "value"
    let rows2 := long5.rows.filter fun r =>
      (cellFVal (cellAt r yi2)).notna && (cellFVal (cellAt r vi)).notna
    if rows2.isEmpty then none
    else
      match astypeIntPairs rows2 yi2 with
      | none => none
      | some pairs =>
        some (pairs.map fun p =>
          { state := cellStr (cellAt p.1 (colIdx long5 "state"))
            year := p.2
            value := cellFVal (cellAt p.1 vi)
            src := src })

/-- Embedding of the per-file body of `process_all`
(`src/process_data.py`, lines 199-234): `try_make_long`, default state
column, state normalization, year and value coercion, row dropping, year
integer cast; `none` models every skip or caught exception for the file. -/
def processFile (src : String) (df : DF) : Option (List Rec) :=
  if df.rows.isEmpty then none
  else
    match try_make_long df with
    | .error _ => none
    | .ok long =>
      let long1 :=
        if long.header.contains "state" then long
        else addCol long "state" (Cell.str "Unknown")
      if ¬ long1.header.contains "year" then none
      else
        let si := colIdx long1 "state"
        let long2 : DF := ⟨long1.header, long1.rows.map fun r =>
          r.set si (Cell.str (normalize_state (cellAt r si)))⟩
        let yi := colIdx long2 "year"
        let long3 : DF := ⟨long2.header, long2.rows.map fun r =>
          r.set yi (Cell.fv (pyToNumeric (cellAt r yi)))⟩
        let long4 :=
          if long3.header.contains "value" then
            some (⟨long3.header, long3.rows.map fun r =>
              r.set (colIdx long3 "value") (Cell.fv (pyToNumeric (cellAt r (colIdx long3 "value"))))⟩ : DF)
          else
            match (long3.header.filter fun c => isNumericCol long3 c).head? with
            | some c =>
              let renamed := renameCols long3 fun l => if l = c then "value" else l
              some (⟨renamed.header, renamed.rows.map fun r =>
                r.set (colIdx renamed "value") (Cell.fv (pyToNumeric (cellAt r (colIdx renamed "value"))))⟩ : DF)
            | none => none
        match long4 with
        | none => none
        | some long5 => finalizeRecs src long5

/-! ## predict.py — series preparation -/

/-- One row of the cleaned CSV as read by `predict.py`. -/
structure PRec where
  state : String
  year : ℤ
  value : ℚ
deriving DecidableEq, Repr

/-- Python `str.strip()` on a string. -/
def stripStr (s : String) : String :=
  String.mk (pyStripList s.toList)

/-- Python `str.lower()` on a string (ASCII). -/
def lcStr (s : String) : String :=
  String.mk (s.toList.map Char.toLower)

/-- Embedding of `is_all_states_label` (`src/predict.py`). -/
def is_all_states_label (s : String) : Bool :=
  s ≠ "" &&
    (let low := lcStr (stripStr s)
     low = "all states" || low = "all states (aggregate)"
       || low = "all_states_aggregate" || low = "all_states")

/-- Insert an integer into an ascending list. -/
def insInt (y : ℤ) : List ℤ → List ℤ
  | [] => [y]
  | a :: t => if y < a then y :: a :: t else a :: insInt y t

/-- Sort integers ascending (the `groupby`/`sort_index` key order). -/
def sortInts (l : List ℤ) : List ℤ :=
  l.foldl (fun acc y => insInt y acc) []

/-- The group keys of `groupby("year")`: distinct years, ascending. -/
def groupYears (recs : List PRec) : List ℤ :=
  sortInts (recs.map PRec.year).dedup

/-- Embedding of `prepare_series` (`src/predict.py`): state labels are
stripped; the aggregate branch sums values per year across all states; the
single-state branch matches the state case-insensitively (with a substring
fallback) and takes the mean of the values per year; both outputs are
sorted by ascending year. -/
def prepare_series (recs : List PRec) (state : Option String)
    (aggregate : Bool) : Except String (List (ℤ × ℚ)) :=
  let recs1 := recs.map fun r => { r with state := stripStr r.state }
  if aggregate || (match state with
      | some s => is_all_states_label s
      | none => false) then
    let ys := groupYears recs1
    let ser := ys.map fun y =>
      (y, ((recs1.filter fun r => r.year = y).map PRec.value).sum)
    if ser.isEmpty then .error "No data available to aggregate across states."
    else .ok ser
  else
    match state with
    | none => .error "No state provided and aggregate not requested."
    | some s0 =>
      if s0 = "" then .error "No state provided and aggregate not requested."
      else
        let q := lcStr (stripStr s0)
        let exact := recs1.filter fun r => lcStr r.state = q
        let chosen : Except String (List PRec) :=
          if exact.isEmpty then
            let cands := (recs1.map fun r => lcStr r.state).dedup
            match cands.find? (fun c => hasSub c.toList q.toList) with
            | some m => .ok (recs1.filter fun r => lcStr r.state = m)
            | none => .error "No data found for state"
          else .ok exact
        match chosen with
        | .error e => .error e
        | .ok sel =>
          let ys := groupYears sel
          let ser := ys.map fun y =>
            (y, ((sel.filter fun r => r.year = y).map PRec.value).sum
              / ((sel.filter fun r => r.year = y).length : ℚ))
          if ser.isEmpty then .error "No numeric values found for state."
          else .ok ser

/-! ## model.py — forecast selection

A pandas Series indexed by integer year is a list of (year, optional value)
pairs; `none` is NaN. The external SARIMAX fit is abstracted as an
`Except String (ℕ → ℚ)` parameter: either the fit raises, or it yields the
predicted mean for each forecast step. -/

/-- A year-indexed series entry: the year and the value (`none` is NaN). -/
abbrev YV := ℤ × Option ℚ

/-- Insert an entry into a list sorted by ascending year. -/
def insertByYear (p : YV) : List YV → List YV
  | [] => [p]
  | q :: t => if p.1 < q.1 then p :: q :: t else q :: insertByYear p t

/-- Embedding of `series.sort_index()`: sort by ascending year. -/
def sortByYear (l : List YV) : List YV :=
  l.foldl (fun acc p => insertByYear p acc) []

/-- Number of non-NaN observations (`len(s.dropna())`, the regression
mask count). -/
def nonNanCount (l : List YV) : ℕ :=
  (l.filter fun p => p.2.isSome).length

/-- Largest year of the index (`s.index.max()`); only used on non-empty
series. -/
def maxYear : List YV → ℤ
  | [] => 0
  | p :: t => max p.1 (maxYear t)

/-- Embedding of `forecast_arima` (`src/model.py`): sort the series, raise
if fewer than 3 non-NaN observations, fit SARIMAX(1,1,1) — abstracted as
`fit` — and return the predicted means indexed by the years
`last_year + 1 .. last_year + periods`. -/
def forecast_arima (fit : Except String (ℕ → ℚ)) (series : List YV)
    (periods : ℕ) : Except String (List YV) :=
  let s := sortByYear series
  if (s.filter fun p => p.2.isSome).length < 3 then
    .error "Not enough non-NaN observations for ARIMA. Need at least 3."
  else
    match fit with
    | .error e => .error e
    | .ok g =>
      let lastYear := maxYear s
      .ok ((List.range periods).map fun i : ℕ => (lastYear + (i : ℤ) + 1, some (g i)))

/-- Embedding of `forecast_trend_lr` (`src/model.py`): sort, drop NaN
values, raise if fewer than 2 observations remain, fit ordinary least
squares of value on year and predict the years
`last_year + 1 .. last_year + periods`. The degenerate zero-variance design
gets slope 0 (the minimum-norm least-squares solution). -/
def forecast_trend_lr (series : List YV) (periods : ℕ) :
    Except String (List YV) :=
  let s := sortByYear series
  let pts : List (ℚ × ℚ) := s.filterMap fun p => p.2.map fun q => ((p.1 : ℚ), q)
  if pts.length < 2 then
    .error "Not enough data for linear regression."
  else
    let n : ℚ := pts.length
    let xbar := (pts.map Prod.fst).sum / n
    let ybar := (pts.map Prod.snd).sum / n
    let sxx := (pts.map fun p => (p.1 - xbar) ^ 2).sum
    let sxy := (pts.map fun p => (p.1 - xbar) * (p.2 - ybar)).sum
    let slope := if sxx = 0 then 0 else sxy / sxx
    let intercept := ybar - slope * xbar
    let lastYear := maxYear s
    .ok ((List.range periods).map fun i : ℕ =>
      (lastYear + (i : ℤ) + 1, some (intercept + slope * ((lastYear : ℚ) + (i : ℚ) + 1))))

/-- Embedding of `choose_forecast` (`src/model.py`): try ARIMA, and on any
exception fall back to the linear trend. -/
def choose_forecast (fit : Except String (ℕ → ℚ)) (series : List YV)
    (periods : ℕ) : Except String (List YV × String) :=
  match forecast_arima fit series periods with
  | .ok f => .ok (f, "arima(1,1,1)")
  | .error _ => (forecast_trend_lr series periods).map fun f => (f, "linear_trend")

/-- Embedding of the series-to-output part of `forecast_state`
(`src/predict.py`, lines 114-131): the prepared series is forecast by
`choose_forecast`, then the output table is the history rows (year, value,
"history") followed by the forecast rows (year, value, "forecast"). -/
def forecastState (fit : Except String (ℕ → ℚ)) (series : List YV)
    (periods : ℕ) : Except String (List (ℤ × Option ℚ × String)) :=
  if series.isEmpty then
    .error "No series data available to forecast."
  else
    (choose_forecast fit series periods).map fun fm =>
      (series.map fun p => (p.1, p.2, "history"))
        ++ fm.1.map fun p => (p.1, p.2, "forecast")

@[simp] lemma compoundVals_length (rate : ℚ) (v : FVal) (n : ℕ) :
    (compoundVals rate v n).length = n := by
  induction n generalizing v with
  | zero => rfl
  | succ n ih => simp [compoundVals, ih]

@[simp] lemma linearVals_length (delta : ℚ) (v : FVal) (n : ℕ) :
    (linearVals delta v n).length = n := by
  induction n generalizing v with
  | zero => rfl
  | succ n ih => simp [linearVals, ih]

lemma compoundVals_chain (rate : ℚ) (v : FVal) (n : ℕ) :
    ∀ i < n, (v :: compoundVals rate v n).getD (i + 1) FVal.nan
      = ((v :: compoundVals rate v n).getD i FVal.nan).mulQ (1 + rate) := by
  induction n generalizing v with
  | zero => intro i hi; exact absurd hi (Nat.not_lt_zero i)
  | succ n ih =>
    intro i hi
    match i with
    | 0 => simp [compoundVals]
    | j + 1 =>
      have hj : j < n := Nat.lt_of_succ_lt_succ hi
      have := ih (v.mulQ (1 + rate)) j hj
      simpa [compoundVals] using this

lemma linearVals_chain (delta : ℚ) (v : FVal) (n : ℕ) :
    ∀ i < n, (v :: linearVals delta v n).getD (i + 1) FVal.nan
      = ((v :: linearVals delta v n).getD i FVal.nan).addQ delta := by
  induction n generalizing v with
  | zero => intro i hi; exact absurd hi (Nat.not_lt_zero i)
  | succ n ih =>
    intro i hi
    match i with
    | 0 => simp [linearVals]
    | j + 1 =>
      have hj : j < n := Nat.lt_of_succ_lt_succ hi
      have := ih (v.addQ delta) j hj
      simpa [linearVals] using this

lemma insertByYear_perm (p : YV) (l : List YV) :
    List.Perm (insertByYear p l) (p :: l) := by
  induction l with
  | nil => rfl
  | cons q t ih =>
    by_cases h : p.1 < q.1
    · simp [insertByYear, h]
    · simp only [insertByYear, if_neg h]
      exact (ih.cons q).trans (List.Perm.swap p q t)

lemma sortByYear_aux_perm (l acc : List YV) :
    List.Perm (l.foldl (fun acc p => insertByYear p acc) acc) (acc ++ l) := by
  induction l generalizing acc with
  | nil => simp
  | cons p t ih =>
    refine (ih (insertByYear p acc)).trans ?_
    refine ((insertByYear_perm p acc).append_right t).trans ?_
    exact List.perm_middle.symm

lemma sortByYear_perm (l : List YV) : List.Perm (sortByYear l) l := by
  simpa using sortByYear_aux_perm l []

lemma nonNanCount_sort (l : List YV) :
    nonNanCount (sortByYear l) = nonNanCount l :=
  ((sortByYear_perm l).filter _).length_eq

lemma filterMap_pts_length (l : List YV) :
    (l.filterMap fun p => p.2.map fun q => ((p.1 : ℚ), q)).length
      = nonNanCount l := by
  induction l with
  | nil => rfl
  | cons p t ih =>
    rcases p with ⟨y, v⟩
    cases v with
    | none => simpa [nonNanCount, List.filterMap_cons] using ih
    | some q => simpa [nonNanCount, List.filterMap_cons] using ih

lemma forecast_trend_lr_ok (series : List YV) (periods : ℕ)
    (h : 2 ≤ nonNanCount series) :
    ∃ f, forecast_trend_lr series periods = Except.ok f := by
  have hlen : ((sortByYear series).filterMap
      fun p => p.2.map fun q => ((p.1 : ℚ), q)).length = nonNanCount series := by
    rw [filterMap_pts_length, nonNanCount_sort]
  simp only [forecast_trend_lr]
  rw [if_neg (by omega)]
  exact ⟨_, rfl⟩

lemma forecast_trend_lr_err (series : List YV) (periods : ℕ)
    (h : nonNanCount series < 2) :
    forecast_trend_lr series periods
      = Except.error "Not enough data for linear regression." := by
  have hlen : ((sortByYear series).filterMap
      fun p => p.2.map fun q => ((p.1 : ℚ), q)).length = nonNanCount series := by
    rw [filterMap_pts_length, nonNanCount_sort]
  simp only [forecast_trend_lr]
  rw [if_pos (by omega)]

lemma forecast_arima_err (fit : Except String (ℕ → ℚ)) (series : List YV)
    (periods : ℕ) (h : nonNanCount series < 3) :
    forecast_arima fit series periods
      = Except.error "Not enough non-NaN observations for ARIMA. Need at least 3." := by
  have hlen : ((sortByYear series).filter fun p => p.2.isSome).length
      = nonNanCount series := nonNanCount_sort series
  simp only [forecast_arima]
  rw [if_pos (by omega)]

lemma maxYear_perm {l l' : List YV} (h : List.Perm l l') :
    maxYear l = maxYear l' := by
  induction h with
  | nil => rfl
  | cons x _ ih => simp [maxYear, ih]
  | swap x y t => simp [maxYear, max_left_comm]
  | trans _ _ ih1 ih2 => exact ih1.trans ih2

lemma maxYear_sort (l : List YV) : maxYear (sortByYear l) = maxYear l :=
  maxYear_perm (sortByYear_perm l)

lemma le_maxYear (l : List YV) : ∀ p ∈ l, p.1 ≤ maxYear l := by
  induction l with
  | nil => intro p hp; cases hp
  | cons q t ih =>
    intro p hp
    rcases List.mem_cons.mp hp with h | h
    · simp [maxYear, h]
    · exact le_trans (ih p h) (by simp [maxYear])

lemma forecast_arima_ok_shape (fit : Except String (ℕ → ℚ)) (series : List YV)
    (periods : ℕ) (f : List YV) (h : forecast_arima fit series periods = Except.ok f) :
    ∃ g : ℕ → ℚ, f = (List.range periods).map
      fun i : ℕ => (maxYear series + (i : ℤ) + 1, some (g i)) := by
  simp only [forecast_arima] at h
  by_cases hc : ((sortByYear series).filter fun p => p.2.isSome).length < 3
  · rw [if_pos hc] at h; exact absurd h (by simp)
  · rw [if_neg hc] at h
    cases fit with
    | error e => exact absurd h (by simp)
    | ok g =>
      injection h with h
      exact ⟨g, by rw [← h, maxYear_sort]⟩

lemma forecast_trend_lr_ok_shape (series : List YV) (periods : ℕ) (f : List YV)
    (h : forecast_trend_lr series periods = Except.ok f) :
    ∃ g : ℕ → ℚ, f = (List.range periods).map
      fun i : ℕ => (maxYear series + (i : ℤ) + 1, some (g i)) := by
  simp only [forecast_trend_lr] at h
  by_cases hc : ((sortByYear series).filterMap
      fun p => p.2.map fun q => ((p.1 : ℚ), q)).length < 2
  · rw [if_pos hc] at h; exact absurd h (by simp)
  · rw [if_neg hc] at h
    injection h with h
    exact ⟨_, by rw [← h, maxYear_sort]⟩

lemma choose_forecast_ok_shape (fit : Except String (ℕ → ℚ)) (series : List YV)
    (periods : ℕ) (f : List YV) (m : String)
    (h : choose_forecast fit series periods = Except.ok (f, m)) :
    ∃ g : ℕ → Option ℚ, f = (List.range periods).map
      fun i : ℕ => (maxYear series + (i : ℤ) + 1, g i) := by
  unfold choose_forecast at h
  cases ha : forecast_arima fit series periods with
  | ok fa =>
    rw [ha] at h
    obtain ⟨g, hg⟩ := forecast_arima_ok_shape fit series periods fa ha
    have hf : fa = f := by
      have := congrArg (fun x : Except String (List YV × String) =>
        match x with | .ok p => p.1 | .error _ => []) h
      simpa using this
    exact ⟨fun i => some (g i), by rw [← hf, hg]⟩
  | error ea =>
    rw [ha] at h
    cases hl : forecast_trend_lr series periods with
    | error e => rw [hl] at h; exact absurd h (by simp [Except.map])
    | ok fl =>
      rw [hl] at h
      obtain ⟨g, hg⟩ := forecast_trend_lr_ok_shape series periods fl hl
      have hf : fl = f := by
        have := congrArg (fun x : Except String (List YV × String) =>
          match x with | .ok p => p.1 | .error _ => []) h
        simpa [Except.map] using this
      exact ⟨fun i => some (g i), by rw [← hf, hg]⟩

lemma chain_lt_consecutive (c : ℤ) (n : ℕ) :
    List.Chain' (· < ·) ((List.range n).map fun i : ℕ => c + (i : ℤ) + 1) := by
  rw [List.chain'_map]
  rw [List.chain'_iff_get]
  intro i hi
  simp only [List.get_eq_getElem, List.getElem_range]
  omega

lemma ule_toNat (a b : UInt32) : (a ≤ b) ↔ (a.toNat ≤ b.toNat) := by
  simp [UInt32.le_def, UInt32.toNat, BitVec.le_def]

lemma char_ofNat_toNat (n : ℕ) (h : n.isValidChar) : (Char.ofNat n).toNat = n := by
  simp only [Char.ofNat, dif_pos h, Char.ofNatAux, Char.toNat]
  rfl

lemma char_eq_iff_toNat (c d : Char) : c = d ↔ c.toNat = d.toNat := by
  constructor
  · intro h; rw [h]
  · intro h; exact Char.ext (UInt32.ext h)

lemma isLower_iff (c : Char) : c.isLower = true ↔ 97 ≤ c.toNat ∧ c.toNat ≤ 122 := by
  simp [Char.isLower, ge_iff_le, ule_toNat, Char.toNat, UInt32.size]

lemma isUpper_iff (c : Char) : c.isUpper = true ↔ 65 ≤ c.toNat ∧ c.toNat ≤ 90 := by
  simp [Char.isUpper, ge_iff_le, ule_toNat, Char.toNat, UInt32.size]

lemma isAlpha_iff (c : Char) : c.isAlpha = true ↔
    (65 ≤ c.toNat ∧ c.toNat ≤ 90) ∨ (97 ≤ c.toNat ∧ c.toNat ≤ 122) := by
  simp [Char.isAlpha, isUpper_iff, isLower_iff]

lemma isWS_iff (c : Char) : isWS c = true ↔
    c.toNat = 32 ∨ c.toNat = 9 ∨ c.toNat = 10 ∨ c.toNat = 13
      ∨ c.toNat = 11 ∨ c.toNat = 12 := by
  simp only [isWS, Bool.or_eq_true, decide_eq_true_eq, char_eq_iff_toNat]
  norm_num [Char.toNat]
  tauto

lemma toUpper_toNat_of_lower (c : Char) (h : 97 ≤ c.toNat ∧ c.toNat ≤ 122) :
    (c.toUpper).toNat = c.toNat - 32 := by
  unfold Char.toUpper
  rw [if_pos (by omega)]
  exact char_ofNat_toNat _ (by constructor; omega)

lemma toUpper_of_not_lower (c : Char) (h : ¬(97 ≤ c.toNat ∧ c.toNat ≤ 122)) :
    c.toUpper = c := by
  unfold Char.toUpper
  rw [if_neg (by omega)]

lemma toLower_toNat_of_upper (c : Char) (h : 65 ≤ c.toNat ∧ c.toNat ≤ 90) :
    (c.toLower).toNat = c.toNat + 32 := by
  unfold Char.toLower
  rw [if_pos (by omega)]
  exact char_ofNat_toNat _ (by constructor; omega)

lemma toLower_of_not_upper (c : Char) (h : ¬(65 ≤ c.toNat ∧ c.toNat ≤ 90)) :
    c.toLower = c := by
  unfold Char.toLower
  rw [if_neg (by omega)]

lemma alpha_not_ws (c : Char) (h : c.isAlpha = true) : isWS c = false := by
  cases hw : isWS c
  · rfl
  · exfalso
    have h1 := (isWS_iff c).mp hw
    have h2 := (isAlpha_iff c).mp h
    omega

lemma toUpper_range (c : Char) (h : c.isAlpha = true) :
    65 ≤ (c.toUpper).toNat ∧ (c.toUpper).toNat ≤ 90 := by
  rcases (isAlpha_iff c).mp h with hu | hl
  · rw [toUpper_of_not_lower c (by omega)]; exact hu
  · have := toUpper_toNat_of_lower c hl; omega

lemma toLower_range (c : Char) (h : c.isAlpha = true) :
    97 ≤ (c.toLower).toNat ∧ (c.toLower).toNat ≤ 122 := by
  rcases (isAlpha_iff c).mp h with hu | hl
  · have := toLower_toNat_of_upper c hu; omega
  · rw [toLower_of_not_upper c (by omega)]; exact hl

lemma toUpper_isAlpha (c : Char) (h : c.isAlpha = true) :
    (c.toUpper).isAlpha = true :=
  (isAlpha_iff _).mpr (Or.inl (toUpper_range c h))

lemma toLower_isAlpha (c : Char) (h : c.isAlpha = true) :
    (c.toLower).isAlpha = true :=
  (isAlpha_iff _).mpr (Or.inr (toLower_range c h))

lemma toUpper_fix (c : Char) (h : c.isAlpha = true) :
    (c.toUpper).toUpper = c.toUpper :=
  toUpper_of_not_lower _ (by have := toUpper_range c h; omega)

lemma toLower_fix (c : Char) (h : c.isAlpha = true) :
    (c.toLower).toLower = c.toLower :=
  toLower_of_not_upper _ (by have := toLower_range c h; omega)

lemma toUpper_not_ws (c : Char) (h : c.isAlpha = true) :
    isWS (c.toUpper) = false :=
  alpha_not_ws _ (toUpper_isAlpha c h)

lemma toLower_not_ws (c : Char) (h : c.isAlpha = true) :
    isWS (c.toLower) = false :=
  alpha_not_ws _ (toLower_isAlpha c h)

lemma titleChar_ws (b : Bool) (c : Char) : isWS (titleChar b c) = isWS c := by
  by_cases hc : c.isAlpha
  · cases b <;>
      simp [titleChar, hc, toUpper_not_ws c hc, toLower_not_ws c hc, alpha_not_ws c hc]
  · simp [titleChar, hc]

lemma titleChar_alpha (b : Bool) (c : Char) :
    (titleChar b c).isAlpha = c.isAlpha := by
  by_cases hc : c.isAlpha
  · cases b <;> simp [titleChar, hc, toUpper_isAlpha c hc, toLower_isAlpha c hc]
  · simp [titleChar, hc]

lemma titleGo_headNotWS (b : Bool) (l : List Char) :
    headNotWS (titleGo b l) = headNotWS l := by
  cases l with
  | nil => rfl
  | cons c rest => simp [titleGo, headNotWS, titleChar_ws]

lemma titleGo_noDoubleWS (l : List Char) :
    ∀ b, noDoubleWS (titleGo b l) = noDoubleWS l := by
  induction l with
  | nil => intro b; rfl
  | cons c rest ih =>
    intro b
    cases rest with
    | nil => simp [titleGo, noDoubleWS]
    | cons r t =>
      show noDoubleWS (titleChar b c :: titleChar c.isAlpha r :: titleGo r.isAlpha t)
        = noDoubleWS (c :: r :: t)
      simp only [noDoubleWS, titleChar_ws]
      have h2 : noDoubleWS (titleChar c.isAlpha r :: titleGo r.isAlpha t)
          = noDoubleWS (r :: t) := ih c.isAlpha
      rw [h2]

lemma titleGo_lastNotWS (l : List Char) :
    ∀ b, lastNotWS (titleGo b l) = lastNotWS l := by
  induction l with
  | nil => intro b; rfl
  | cons c rest ih =>
    intro b
    cases rest with
    | nil => simp [titleGo, lastNotWS, titleChar_ws]
    | cons r t =>
      show lastNotWS (titleChar b c :: titleChar c.isAlpha r :: titleGo r.isAlpha t)
        = lastNotWS (c :: r :: t)
      have h2 : lastNotWS (titleChar c.isAlpha r :: titleGo r.isAlpha t)
          = lastNotWS (r :: t) := ih c.isAlpha
      simpa [lastNotWS] using h2

lemma titleGo_titled (l : List Char) :
    ∀ b, isTitledGo b (titleGo b l) = true := by
  induction l with
  | nil => intro b; rfl
  | cons c rest ih =>
    intro b
    show isTitledGo b (titleChar b c :: titleGo c.isAlpha rest) = true
    simp only [isTitledGo, titleChar_alpha, Bool.and_eq_true]
    refine ⟨?_, ih c.isAlpha⟩
    by_cases hc : c.isAlpha
    · rw [if_pos hc]
      cases b with
      | false => simp [titleChar, hc, toUpper_fix c hc]
      | true => simp [titleChar, hc, toLower_fix c hc]
    · simp [hc]

lemma collapseGo_headNotWS_true (l : List Char) :
    headNotWS (collapseGo true l) = true := by
  induction l with
  | nil => rfl
  | cons c rest ih =>
    by_cases hc : isWS c
    · simpa [collapseGo, hc] using ih
    · simp [collapseGo, hc, headNotWS]

lemma collapseGo_false_headNotWS (l : List Char) (h : headNotWS l = true) :
    headNotWS (collapseGo false l) = true := by
  cases l with
  | nil => rfl
  | cons c rest =>
    have hc : isWS c = false := by simpa [headNotWS] using h
    simp [collapseGo, hc, headNotWS]

lemma collapseGo_noDoubleWS (l : List Char) :
    ∀ b, noDoubleWS (collapseGo b l) = true := by
  induction l with
  | nil => intro b; rfl
  | cons c rest ih =>
    intro b
    by_cases hc : isWS c
    · cases b with
      | true => simpa [collapseGo, hc] using ih true
      | false =>
        rw [show collapseGo false (c :: rest) = ' ' :: collapseGo true rest by
          simp [collapseGo, hc]]
        have hh := collapseGo_headNotWS_true rest
        have ht := ih true
        cases hX : collapseGo true rest with
        | nil => rfl
        | cons d t2 =>
          rw [hX] at hh ht
          have hd : isWS d = false := by simpa [headNotWS] using hh
          simp [noDoubleWS, hd, ht]
    · have hc2 : isWS c = false := by simpa using hc
      rw [show collapseGo b (c :: rest) = c :: collapseGo false rest by
        simp [collapseGo, hc2]]
      have ht := ih false
      cases hX : collapseGo false rest with
      | nil => rfl
      | cons d t2 =>
        rw [hX] at ht
        simp [noDoubleWS, hc2, ht]

lemma collapseGo_false_ne_nil (l : List Char) (h : l ≠ []) :
    collapseGo false l ≠ [] := by
  cases l with
  | nil => exact absurd rfl h
  | cons c rest => by_cases hc : isWS c <;> simp [collapseGo, hc]

lemma lastNotWS_cons (c : Char) (l : List Char) (h : l ≠ []) :
    lastNotWS (c :: l) = lastNotWS l := by
  cases l with
  | nil => exact absurd rfl h
  | cons d t => rfl

lemma lastNotWS_not_all_ws (l : List Char) (h : lastNotWS l = true) (hne : l ≠ []) :
    l.all isWS = false := by
  induction l with
  | nil => exact absurd rfl hne
  | cons c rest ih =>
    cases rest with
    | nil =>
      have hc : isWS c = false := by simpa [lastNotWS] using h
      simp [List.all_cons, hc]
    | cons r t =>
      have h2 : lastNotWS (r :: t) = true := h
      simp [List.all_cons, ih h2 (by simp)]

lemma collapseGo_true_ne_nil (l : List Char) (h : lastNotWS l = true) (hne : l ≠ []) :
    collapseGo true l ≠ [] := by
  induction l with
  | nil => exact absurd rfl hne
  | cons c rest ih =>
    by_cases hc : isWS c
    · cases rest with
      | nil => simp [lastNotWS, hc] at h
      | cons r t =>
        have h2 : lastNotWS (r :: t) = true := h
        simpa [collapseGo, hc] using ih h2 (by simp)
    · simp [collapseGo, hc]

lemma collapseGo_lastNotWS (l : List Char) :
    ∀ b, lastNotWS l = true → lastNotWS (collapseGo b l) = true := by
  induction l with
  | nil => intro b _; rfl
  | cons c rest ih =>
    intro b h
    cases rest with
    | nil =>
      have hc : isWS c = false := by simpa [lastNotWS] using h
      simp [collapseGo, hc, lastNotWS]
    | cons r t =>
      have hrest : lastNotWS (r :: t) = true := h
      by_cases hc : isWS c
      · cases b with
        | true => simpa [collapseGo, hc] using ih true hrest
        | false =>
          rw [show collapseGo false (c :: r :: t) = ' ' :: collapseGo true (r :: t) by
            simp [collapseGo, hc]]
          have hne : collapseGo true (r :: t) ≠ [] :=
            collapseGo_true_ne_nil _ hrest (by simp)
          rw [lastNotWS_cons _ _ hne]
          exact ih true hrest
      · have hc2 : isWS c = false := by simpa using hc
        rw [show collapseGo b (c :: r :: t) = c :: collapseGo false (r :: t) by
          simp [collapseGo, hc2]]
        have hne : collapseGo false (r :: t) ≠ [] :=
          collapseGo_false_ne_nil _ (by simp)
        rw [lastNotWS_cons _ _ hne]
        exact ih false hrest

lemma headNotWS_dropWhile (l : List Char) :
    headNotWS (l.dropWhile isWS) = true := by
  induction l with
  | nil => rfl
  | cons c rest ih =>
    by_cases hc : isWS c
    · simpa [List.dropWhile_cons, hc] using ih
    · simp [List.dropWhile_cons, hc, headNotWS]

lemma lastNotWS_append_single (xs : List Char) (c : Char) :
    lastNotWS (xs ++ [c]) = !isWS c := by
  induction xs with
  | nil => rfl
  | cons a t ih =>
    have hne : t ++ [c] ≠ [] := by simp
    show lastNotWS (a :: (t ++ [c])) = !isWS c
    rw [lastNotWS_cons _ _ hne, ih]

lemma strip_head_aux (u : List Char) (c : Char) (hc : isWS c = false) :
    headNotWS ((List.dropWhile isWS (u ++ [c])).reverse) = true := by
  induction u with
  | nil => simp [List.dropWhile, hc, headNotWS]
  | cons a u2 ih =>
    by_cases ha : isWS a
    · simpa [List.dropWhile_cons, ha] using ih
    · rw [List.cons_append, List.dropWhile_cons, if_neg (by simp [ha])]
      rw [List.reverse_cons]
      rw [List.reverse_append]
      simp [headNotWS, hc]

lemma pyStrip_head (l : List Char) : headNotWS (pyStripList l) = true := by
  unfold pyStripList
  cases hm : l.dropWhile isWS with
  | nil => rfl
  | cons c t =>
    have hc : isWS c = false := by
      have := headNotWS_dropWhile l
      rw [hm] at this
      simpa [headNotWS] using this
    rw [List.reverse_cons]
    exact strip_head_aux t.reverse c hc

lemma pyStrip_last (l : List Char) : lastNotWS (pyStripList l) = true := by
  unfold pyStripList
  cases hX : (l.dropWhile isWS).reverse.dropWhile isWS with
  | nil => rfl
  | cons d t2 =>
    have hd : isWS d = false := by
      have := headNotWS_dropWhile (l.dropWhile isWS).reverse
      rw [hX] at this
      simpa [headNotWS] using this
    rw [List.reverse_cons, lastNotWS_append_single]
    simp [hd]

lemma filterMap_all_some {α β : Type} (f : α → Option β) (g : α → β) (l : List α)
    (h : ∀ a, f a = some (g a)) : l.filterMap f = l.map g := by
  induction l with
  | nil => rfl
  | cons a t ih => simp [List.filterMap_cons, h a, ih]

lemma melt_two_years (idS : String) (rows : List (List Cell))
    (h1 : idS ≠ "year") (h2 : idS ≠ "value") (h4 : idS ≠ "2001") (h5 : idS ≠ "2002") :
    melt_wide_to_long ⟨[idS, "2001", "2002"], rows⟩ ["2001", "2002"] [idS]
      = Except.ok ⟨[idS, "year", "value"],
          (rows.map fun r => [cellAt r 0, Cell.fv (FVal.fin ((2001 : ℕ) : ℚ)), cellAt r 1])
            ++ (rows.map fun r => [cellAt r 0, Cell.fv (FVal.fin ((2002 : ℕ) : ℚ)), cellAt r 2])⟩ := by
  have hc1 : colIdx ⟨[idS, "2001", "2002"], rows⟩ idS = 0 := by
    simp [colIdx, List.findIdx?_cons]
  have hc2 : colIdx ⟨[idS, "2001", "2002"], rows⟩ "2001" = 1 := by
    simp [colIdx, List.findIdx?_cons, h4]
  have hc3 : colIdx ⟨[idS, "2001", "2002"], rows⟩ "2002" = 2 := by
    simp [colIdx, List.findIdx?_cons, h4, h5]
  have hncv : ([idS, "2001", "2002"].contains "value") = false := by
    simp [List.contains, List.elem_cons]
    exact fun e => h2 e.symm
  have hncy : ([idS].contains "year") = false := by
    simp [List.contains, List.elem_cons]
    exact fun e => h1 e.symm
  simp only [melt_wide_to_long, pdMelt, hncv, Bool.false_eq_true, if_false, hncy,
    List.flatMap_cons, List.flatMap_nil, List.append_nil, List.map_cons, List.map_nil,
    hc1, hc2, hc3, List.filterMap_append, List.filterMap_map]
  refine congrArg Except.ok ?_
  refine congrArg₂ DF.mk rfl ?_
  refine congrArg₂ (· ++ ·) ?_ ?_ <;>
    exact filterMap_all_some _ _ rows (fun r => rfl)

lemma tmlWideFinish_std (idS : String) (df0 : DF) (lrows : List (List Cell))
    (h1 : idS ≠ "year") (h2 : idS ≠ "value")
    (hlen : ∀ r ∈ lrows, r.length = 3) :
    ∃ stFn : List Cell → Cell,
      (tmlWideFinish df0 [idS] ⟨[idS, "year", "value"], lrows⟩
        = Except.ok ⟨["state", "year", "value"],
            lrows.map fun r => [stFn r, cellAt r 1, cellAt r 2]⟩)
      ∧ ((∀ r, stFn r = cellAt r 0) ∨ (∀ r, stFn r = Cell.str "unknown")) := by
  by_cases hemp : idS = ""
  · subst hemp
    refine ⟨fun _ => Cell.str "unknown", ?_, Or.inr fun _ => rfl⟩
    have hsc : searchCI "" ["state", "region", "area", "name", "unit"] = false := rfl
    simp [tmlWideFinish, hsc, addCol, selectCols, colIdx, List.findIdx?_cons]
    intro r hr
    obtain ⟨a, b, c, rfl⟩ := List.length_eq_three.mp (hlen r hr)
    exact ⟨rfl, rfl, rfl⟩
  · refine ⟨fun r => cellAt r 0, ?_, Or.inl fun _ => rfl⟩
    by_cases hsc : searchCI idS ["state", "region", "area", "name", "unit"] = true
    · simp [tmlWideFinish, hsc, hemp, renameCols, selectCols, colIdx,
        List.findIdx?_cons, Ne.symm h1, Ne.symm h2]
    · have hsc2 : searchCI idS ["state", "region", "area", "name", "unit"] = false := by
        revert hsc
        cases searchCI idS ["state", "region", "area", "name", "unit"] <;> simp
      simp [tmlWideFinish, hsc2, hemp, renameCols, selectCols, colIdx,
        List.findIdx?_cons, Ne.symm h1, Ne.symm h2]


lemma tmlWide_std (idS : String) (rows : List (List Cell))
    (h1 : idS ≠ "year") (h2 : idS ≠ "value") (h3 : isYearLabel idS = false) :
    ∃ stFn : List Cell → Cell,
      tmlWide ⟨[idS, "2001", "2002"], rows⟩ ["2001", "2002"]
        = Except.ok ⟨["state", "year", "value"],
            (rows.map fun r => [stFn r, Cell.fv (FVal.fin ((2001 : ℕ) : ℚ)), cellAt r 1])
              ++ (rows.map fun r => [stFn r, Cell.fv (FVal.fin ((2002 : ℕ) : ℚ)), cellAt r 2])⟩ := by
  have h4 : idS ≠ "2001" := fun e => by rw [e] at h3; exact absurd h3 (by decide)
  have h5 : idS ≠ "2002" := fun e => by rw [e] at h3; exact absurd h3 (by decide)
  have hid : ([idS, "2001", "2002"].filter fun c => ¬ (["2001", "2002"].contains c)) = [idS] := by
    simp [List.contains, List.elem_cons, List.filter, h4, h5]
  have hmelt := melt_two_years idS rows h1 h2 h4 h5
  have step : tmlWide ⟨[idS, "2001", "2002"], rows⟩ ["2001", "2002"]
      = tmlWideFinish ⟨[idS, "2001", "2002"], rows⟩ [idS]
          ⟨[idS, "year", "value"],
            (rows.map fun r => [cellAt r 0, Cell.fv (FVal.fin ((2001 : ℕ) : ℚ)), cellAt r 1])
              ++ (rows.map fun r => [cellAt r 0, Cell.fv (FVal.fin ((2002 : ℕ) : ℚ)), cellAt r 2])⟩ := by
    simp only [tmlWide, hid, List.isEmpty_cons, Bool.false_eq_true, if_false, hmelt]
  rw [step]
  have hlen : ∀ r ∈ (rows.map fun r => [cellAt r 0, Cell.fv (FVal.fin ((2001 : ℕ) : ℚ)), cellAt r 1])
      ++ (rows.map fun r => [cellAt r 0, Cell.fv (FVal.fin ((2002 : ℕ) : ℚ)), cellAt r 2]),
      r.length = 3 := by
    intro r hr
    rcases List.mem_append.mp hr with hr | hr <;>
      · obtain ⟨a, _, rfl⟩ := List.mem_map.mp hr
        rfl
  obtain ⟨stFn, hfin, hdi⟩ := tmlWideFinish_std idS ⟨[idS, "2001", "2002"], rows⟩ _ h1 h2 hlen
  rcases hdi with hdi | hdi
  · refine ⟨fun r => cellAt r 0, ?_⟩
    rw [hfin]
    refine congrArg Except.ok (congrArg₂ DF.mk rfl ?_)
    simp only [List.map_append, List.map_map]
    refine congrArg₂ (· ++ ·) ?_ ?_ <;>
      · apply List.map_congr_left
        intro a _
        simp [Function.comp, hdi]
        exact ⟨rfl, rfl, rfl⟩
  · refine ⟨fun _ => Cell.str "unknown", ?_⟩
    rw [hfin]
    refine congrArg Except.ok (congrArg₂ DF.mk rfl ?_)
    simp only [List.map_append, List.map_map]
    refine congrArg₂ (· ++ ·) ?_ ?_ <;>
      · apply List.map_congr_left
        intro a _
        simp [Function.comp, hdi]
        exact ⟨rfl, rfl⟩

lemma insInt_perm (y : ℤ) (l : List ℤ) : List.Perm (insInt y l) (y :: l) := by
  induction l with
  | nil => rfl
  | cons a t ih =>
    by_cases h : y < a
    · simp [insInt, h]
    · simp only [insInt, if_neg h]
      exact (ih.cons a).trans (List.Perm.swap y a t)

lemma sortInts_aux_perm (l acc : List ℤ) :
    List.Perm (l.foldl (fun acc y => insInt y acc) acc) (acc ++ l) := by
  induction l generalizing acc with
  | nil => simp
  | cons y t ih =>
    refine (ih (insInt y acc)).trans ?_
    refine ((insInt_perm y acc).append_right t).trans ?_
    exact List.perm_middle.symm

lemma sortInts_perm (l : List ℤ) : List.Perm (sortInts l) l := by
  simpa using sortInts_aux_perm l []

lemma insInt_pairwise (y : ℤ) (l : List ℤ) (hl : l.Pairwise (· < ·))
    (hy : y ∉ l) : (insInt y l).Pairwise (· < ·) := by
  induction l with
  | nil => simp [insInt]
  | cons a t ih =>
    rcases List.pairwise_cons.mp hl with ⟨ha, ht⟩
    have hy1 : y ≠ a := fun e => hy (e ▸ List.mem_cons_self a t)
    have hy2 : y ∉ t := fun m => hy (List.mem_cons_of_mem a m)
    by_cases h : y < a
    · rw [insInt, if_pos h]
      refine List.pairwise_cons.mpr ⟨fun b hb => ?_, hl⟩
      rcases List.mem_cons.mp hb with e | m
      · omega
      · exact lt_trans h (ha b m)
    · rw [insInt, if_neg h]
      refine List.pairwise_cons.mpr ⟨fun b hb => ?_, ih ht hy2⟩
      rcases List.mem_cons.mp ((insInt_perm y t).mem_iff.mp hb) with e | m
      · subst e; omega
      · exact ha b m

lemma sortInts_aux_pairwise (l acc : List ℤ) (h : (acc ++ l).Nodup)
    (hacc : acc.Pairwise (· < ·)) :
    (l.foldl (fun acc y => insInt y acc) acc).Pairwise (· < ·) := by
  induction l generalizing acc with
  | nil => exact hacc
  | cons y t ih =>
    have hperm : List.Perm (insInt y acc ++ t) (acc ++ y :: t) :=
      ((insInt_perm y acc).append_right t).trans List.perm_middle.symm
    have hnd : (insInt y acc ++ t).Nodup := hperm.nodup_iff.mpr h
    have hyacc : y ∉ acc := by
      rcases List.nodup_append.mp h with ⟨_, _, hdisj⟩
      exact fun m => hdisj m (List.mem_cons_self y t)
    exact ih (insInt y acc) hnd (insInt_pairwise y acc hacc hyacc)

lemma groupYears_sorted (recs : List PRec) :
    List.Chain' (· < ·) (groupYears recs) := by
  rw [List.chain'_iff_pairwise]
  exact sortInts_aux_pairwise _ [] (by simpa using (recs.map PRec.year).nodup_dedup)
    List.Pairwise.nil

lemma groupYears_mem (recs : List PRec) (y : ℤ) :
    y ∈ groupYears recs ↔ ∃ r ∈ recs, r.year = y := by
  unfold groupYears
  rw [(sortInts_perm _).mem_iff, List.mem_dedup, List.mem_map]

lemma mem_map_pair (g : ℤ → ℚ) (ys : List ℤ) (y : ℤ) (v : ℚ) :
    ((y, v) ∈ ys.map fun x => (x, g x)) ↔ y ∈ ys ∧ v = g y := by
  rw [List.mem_map]
  constructor
  · rintro ⟨x, hx, e⟩
    have e1 : x = y := congrArg Prod.fst e
    have e2 : g x = v := congrArg Prod.snd e
    subst e1
    exact ⟨hx, e2.symm⟩
  · rintro ⟨hy, rfl⟩
    exact ⟨y, hy, rfl⟩

lemma strip_filter_year (recs : List PRec) (y : ℤ) :
    (((recs.map fun r => { r with state := stripStr r.state }).filter
        fun r => r.year = y).map PRec.value)
      = ((recs.filter fun r => r.year = y).map PRec.value) := by
  rw [List.filter_map, List.map_map]
  rfl

lemma strip_groupYears (recs : List PRec) :
    groupYears (recs.map fun r => { r with state := stripStr r.state })
      = groupYears recs := by
  unfold groupYears
  rw [List.map_map]
  rfl

lemma strip_filter_state (recs : List PRec) (q : String) :
    ((recs.map fun r => { r with state := stripStr r.state }).filter
        fun r => lcStr r.state = q)
      = ((recs.filter fun r => lcStr (stripStr r.state) = q).map
          fun r => { r with state := stripStr r.state }) := by
  rw [List.filter_map]
  rfl


lemma strip_filter_year_len (recs : List PRec) (y : ℤ) :
    (((recs.map fun r => { r with state := stripStr r.state }).filter
        fun r => r.year = y).length)
      = ((recs.filter fun r => r.year = y).length) := by
  rw [List.filter_map, List.length_map]
  rfl

lemma chain_map_fst_pair (g : ℤ → ℚ) (ys : List ℤ)
    (h : List.Chain' (· < ·) ys) :
    List.Chain' (· < ·) ((ys.map fun x => (x, g x)).map Prod.fst) := by
  rw [List.map_map]
  have he : (Prod.fst ∘ fun x : ℤ => (x, g x)) = id := funext fun _ => rfl
  rw [he, List.map_id]
  exact h

/-- C1: the scenario projector returns offsets `0..periods` and `periods + 1`
values; the value at offset 0 is the base value; in compound mode each value
is the previous one times `1 + rate`, in linear mode the previous one plus
`delta`; and the concrete instance `base_value = 100`, `periods = 3`,
compound, `rate = -0.01` yields `[100, 99.0, 98.01, 97.0299]`. -/
theorem build_forecasts_series_spec (b : ℚ) (periods : ℕ) (rate delta : ℚ) :
    ((build_forecasts_for_value (FVal.fin b) periods "compound" rate delta).1
        = List.range (periods + 1)
      ∧ (build_forecasts_for_value (FVal.fin b) periods "compound" rate delta).2.length
        = periods + 1
      ∧ (build_forecasts_for_value (FVal.fin b) periods "compound" rate delta).2.getD 0 FVal.nan
        = FVal.fin b
      ∧ ∀ i < periods,
        (build_forecasts_for_value (FVal.fin b) periods "compound" rate delta).2.getD (i + 1) FVal.nan
          = ((build_forecasts_for_value (FVal.fin b) periods "compound" rate delta).2.getD i FVal.nan).mulQ
              (1 + rate))
    ∧ ((build_forecasts_for_value (FVal.fin b) periods "linear" rate delta).1
        = List.range (periods + 1)
      ∧ (build_forecasts_for_value (FVal.fin b) periods "linear" rate delta).2.length
        = periods + 1
      ∧ (build_forecasts_for_value (FVal.fin b) periods "linear" rate delta).2.getD 0 FVal.nan
        = FVal.fin b
      ∧ ∀ i < periods,
        (build_forecasts_for_value (FVal.fin b) periods "linear" rate delta).2.getD (i + 1) FVal.nan
          = ((build_forecasts_for_value (FVal.fin b) periods "linear" rate delta).2.getD i FVal.nan).addQ
              delta)
    ∧ (build_forecasts_for_value (FVal.fin 100) 3 "compound" (-(1/100)) 0).2
        = [FVal.fin 100, FVal.fin 99, FVal.fin (9801/100), FVal.fin (970299/10000)] := by
  refine ⟨⟨?_, ?_, ?_, ?_⟩, ⟨?_, ?_, ?_, ?_⟩, ?_⟩
  · simp [build_forecasts_for_value]
  · simp [build_forecasts_for_value]
  · simp [build_forecasts_for_value]
  · intro i hi
    simpa [build_forecasts_for_value] using compoundVals_chain rate (FVal.fin b) periods i hi
  · simp [build_forecasts_for_value]
  · simp [build_forecasts_for_value]
  · simp [build_forecasts_for_value]
  · intro i hi
    simpa [build_forecasts_for_value] using linearVals_chain delta (FVal.fin b) periods i hi
  · norm_num [build_forecasts_for_value, compoundVals, FVal.mulQ]

/-- Witness for C1: the recurrence clauses instantiated at the concrete
projection with base 100 and rate -0.01. -/
theorem build_forecasts_series_spec_witness :
    (build_forecasts_for_value (FVal.fin 100) 3 "compound" (-(1/100)) 0).2.getD 2 FVal.nan
      = ((build_forecasts_for_value (FVal.fin 100) 3 "compound" (-(1/100)) 0).2.getD 1 FVal.nan).mulQ
          (1 + -(1/100))
    ∧ (build_forecasts_for_value (FVal.fin 50) 2 "linear" 0 5).2.getD 1 FVal.nan
      = ((build_forecasts_for_value (FVal.fin 50) 2 "linear" 0 5).2.getD 0 FVal.nan).addQ 5 :=
  ⟨(build_forecasts_series_spec 100 3 (-(1/100)) 0).1.2.2.2 1 (by decide),
   (build_forecasts_series_spec 50 2 0 5).2.1.2.2.2 0 (by decide)⟩

/-- C4 counterexample: on a missing (NaN) base value the projector does not
fail with an InvalidBaseValue error — the row is processed normally and the
NaN merely propagates into every projected value. -/
theorem runRow_nan_not_error :
    runRow "S" (Cell.fv FVal.nan) 2024 1 "compound" 0 0
      = Except.ok (some
          [{ state := "S", year := 2024, value := FVal.nan, rtype := "history" },
           { state := "S", year := 2025, value := FVal.nan, rtype := "forecast" }]) := by
  rfl

/-- C4 amended: the scenario projector never raises for any metric cell —
an unparsable string cell is silently skipped (the `except: continue`), and
float cells (finite, NaN or infinite alike) are always projected. -/
theorem runRow_never_fails (state : String) (cell : Cell) (baseYear : ℤ)
    (periods : ℕ) (mode : String) (rate delta : ℚ) :
    ∃ o, runRow state cell baseYear periods mode rate delta = Except.ok o := by
  unfold runRow
  cases pyFloat cell with
  | error e => exact ⟨none, rfl⟩
  | ok v => exact ⟨_, rfl⟩

/-- C2: an ARIMA failure inside `choose_forecast` is never propagated —
whenever `forecast_arima` raises, the result is exactly the linear-trend
fallback tagged "linear_trend"; and any error `choose_forecast` raises is an
error raised by the linear fallback itself. -/
theorem choose_forecast_silent_fallback (fit : Except String (ℕ → ℚ))
    (series : List YV) (periods : ℕ) :
    (∀ e, forecast_arima fit series periods = Except.error e →
      choose_forecast fit series periods
        = (forecast_trend_lr series periods).map fun f => (f, "linear_trend"))
    ∧ ∀ e, choose_forecast fit series periods = Except.error e →
        forecast_trend_lr series periods = Except.error e := by
  constructor
  · intro e he
    simp [choose_forecast, he]
  · intro e he
    unfold choose_forecast at he
    cases ha : forecast_arima fit series periods with
    | ok f => rw [ha] at he; exact absurd he (by simp)
    | error e2 =>
      rw [ha] at he
      cases hl : forecast_trend_lr series periods with
      | ok f => rw [hl] at he; exact absurd he (by simp [Except.map])
      | error e3 =>
        rw [hl] at he
        simpa [Except.map] using he

/-- Witness for C2 at a two-observation series: ARIMA raises (fewer than 3
points), the fallback result is returned; and at a one-observation series
the surfaced error is the linear regression error. -/
theorem choose_forecast_silent_fallback_witness :
    (choose_forecast (Except.ok fun _ => 0) [((2000 : ℤ), some (1 : ℚ)), (2001, some 2)] 1
      = (forecast_trend_lr [((2000 : ℤ), some (1 : ℚ)), (2001, some 2)] 1).map
          fun f => (f, "linear_trend"))
    ∧ forecast_trend_lr [((2000 : ℤ), some (1 : ℚ))] 1
      = Except.error "Not enough data for linear regression." :=
  ⟨(choose_forecast_silent_fallback (Except.ok fun _ => 0)
      [((2000 : ℤ), some (1 : ℚ)), (2001, some 2)] 1).1
      "Not enough non-NaN observations for ARIMA. Need at least 3." rfl,
   (choose_forecast_silent_fallback (Except.ok fun _ => 0)
      [((2000 : ℤ), some (1 : ℚ))] 1).2
      "Not enough data for linear regression." rfl⟩

/-- C6: the statistical path needs at least 3 non-missing observations
(`forecast_arima` raises on fewer); with exactly 2 non-missing observations
`choose_forecast` returns the "linear_trend" method; with fewer than 2 it
fails with the insufficient-data error raised by the linear fallback. -/
theorem choose_forecast_min_observations (fit : Except String (ℕ → ℚ))
    (series : List YV) (periods : ℕ) :
    (nonNanCount series < 3 →
      ∃ e, forecast_arima fit series periods = Except.error e)
    ∧ (nonNanCount series = 2 →
      ∃ f, choose_forecast fit series periods = Except.ok (f, "linear_trend"))
    ∧ (nonNanCount series < 2 →
      choose_forecast fit series periods
        = Except.error "Not enough data for linear regression.") := by
  refine ⟨fun h => ⟨_, forecast_arima_err fit series periods h⟩, fun h => ?_, fun h => ?_⟩
  · obtain ⟨f, hf⟩ := forecast_trend_lr_ok series periods (by omega)
    exact ⟨f, by simp [choose_forecast,
      forecast_arima_err fit series periods (by omega), hf, Except.map]⟩
  · simp [choose_forecast, forecast_arima_err fit series periods (by omega),
      forecast_trend_lr_err series periods h, Except.map]

/-- Witness for C6: the three clauses at concrete series with 2, 2 and 1
non-missing observations respectively. -/
theorem choose_forecast_min_observations_witness :
    (∃ e, forecast_arima (Except.ok fun _ => 0)
        [((2000 : ℤ), some (1 : ℚ)), (2001, some 2)] 5 = Except.error e)
    ∧ (∃ f, choose_forecast (Except.ok fun _ => 0)
        [((2000 : ℤ), some (1 : ℚ)), (2001, some 2)] 5
          = Except.ok (f, "linear_trend"))
    ∧ choose_forecast (Except.ok fun _ => 0) [((2000 : ℤ), some (1 : ℚ))] 5
        = Except.error "Not enough data for linear regression." :=
  ⟨(choose_forecast_min_observations (Except.ok fun _ => 0)
      [((2000 : ℤ), some (1 : ℚ)), (2001, some 2)] 5).1 (by decide),
   (choose_forecast_min_observations (Except.ok fun _ => 0)
      [((2000 : ℤ), some (1 : ℚ)), (2001, some 2)] 5).2.1 (by decide),
   (choose_forecast_min_observations (Except.ok fun _ => 0)
      [((2000 : ℤ), some (1 : ℚ))] 5).2.2 (by decide)⟩

/-- C5 counterexample: with the history years 2000 and 2005 the combined
output of `forecast_state` keeps the gap of the input history, so the whole
year sequence is not gap-free (2005 does not equal 2000 + 1). -/
theorem forecast_state_gap_counterexample :
    forecastState (Except.ok fun _ => 0) [((2000 : ℤ), some (1 : ℚ)), (2005, some 2)] 1
      = Except.ok [((2000 : ℤ), some (1 : ℚ), "history"), (2005, some 2, "history"),
          (2006, some (11/5 : ℚ), "forecast")]
    ∧ ¬ ((2005 : ℤ) = 2000 + 1) := by
  constructor
  · norm_num [forecastState, choose_forecast, forecast_arima, forecast_trend_lr,
      sortByYear, insertByYear, maxYear, Except.map, List.filterMap_cons,
      List.range_succ, Function.comp]
  · decide

/-- C5 amended: on a strictly year-sorted series, a successful
`forecast_state` output is exactly the history points labeled "history"
followed by exactly `periods` points labeled "forecast" at years
`last_observed_year + i` for `i = 1..periods`; the full year sequence is
strictly increasing (and gap-free from the last observed year onward),
though gaps inside the input history are preserved. -/
theorem forecast_state_structure (fit : Except String (ℕ → ℚ)) (series : List YV)
    (periods : ℕ) (out : List (ℤ × Option ℚ × String))
    (hsorted : List.Chain' (fun a b : YV => a.1 < b.1) series)
    (hok : forecastState fit series periods = Except.ok out) :
    ∃ fvals : ℕ → Option ℚ,
      out = (series.map fun p => (p.1, p.2, "history"))
          ++ (List.range periods).map
              (fun i : ℕ => (maxYear series + (i : ℤ) + 1, fvals i, "forecast"))
        ∧ List.Chain' (· < ·) (out.map fun t => t.1) := by
  unfold forecastState at hok
  by_cases hne : series.isEmpty
  · rw [if_pos hne] at hok; exact absurd hok (by simp)
  · rw [if_neg hne] at hok
    cases hcf : choose_forecast fit series periods with
    | error e => rw [hcf] at hok; exact absurd hok (by simp [Except.map])
    | ok fm =>
      rw [hcf] at hok
      obtain ⟨f, m⟩ := fm
      obtain ⟨g, hg⟩ := choose_forecast_ok_shape fit series periods f m hcf
      have hout : out = (series.map fun p => (p.1, p.2, "history"))
          ++ f.map fun p => (p.1, p.2, "forecast") := by
        simpa [Except.map] using hok.symm
      refine ⟨g, ?_, ?_⟩
      · rw [hout, hg, List.map_map]
        rfl
      · rw [hout, List.map_append, List.chain'_append]
        refine ⟨?_, ?_, ?_⟩
        · rw [List.map_map, List.chain'_map]
          exact hsorted
        · rw [hg, List.map_map, List.map_map]
          exact chain_lt_consecutive (maxYear series) periods
        · intro x hx y hy
          rw [List.map_map, List.getLast?_map] at hx
          obtain ⟨p, hp, hxp⟩ := Option.map_eq_some'.mp (Option.mem_def.mp hx)
          have hpmem : p ∈ series := List.mem_of_mem_getLast? hp
          have hple : p.1 ≤ maxYear series := le_maxYear series p hpmem
          rw [hg, List.map_map, List.map_map] at hy
          cases periods with
          | zero => simp at hy
          | succ n =>
            rw [List.range_succ_eq_map, List.map_cons, List.head?_cons] at hy
            have hyv : y = maxYear series + 1 := by
              have := Option.mem_def.mp hy
              simp at this
              omega
            subst hyv
            have hx1 : x = p.1 := by simpa using hxp.symm
            omega

/-- Witness for C5 amended: the structure theorem instantiated at a
three-observation series where the statistical path succeeds. -/
theorem forecast_state_structure_witness :
    ∃ fvals : ℕ → Option ℚ,
      [((2000 : ℤ), some (1 : ℚ), "history"), (2001, some 2, "history"),
          (2002, some 3, "history"), (2003, some 7, "forecast")]
        = ([((2000 : ℤ), some (1 : ℚ)), (2001, some 2), (2002, some 3)].map
            fun p => (p.1, p.2, "history"))
          ++ (List.range 1).map
              (fun i : ℕ =>
                (maxYear [((2000 : ℤ), some (1 : ℚ)), (2001, some 2), (2002, some 3)]
                  + (i : ℤ) + 1, fvals i, "forecast"))
        ∧ List.Chain' (· < ·)
            (([((2000 : ℤ), some (1 : ℚ), "history"), (2001, some 2, "history"),
              (2002, some 3, "history"), (2003, some 7, "forecast")]).map fun t => t.1) :=
  forecast_state_structure (Except.ok fun _ => 7)
    [((2000 : ℤ), some (1 : ℚ)), (2001, some 2), (2002, some 3)] 1
    [((2000 : ℤ), some (1 : ℚ), "history"), (2001, some 2, "history"),
      (2002, some 3, "history"), (2003, some 7, "forecast")]
    (by norm_num [List.chain'_cons]) rfl

/-- C8: for every non-missing string entity label, `normalize_state`
produces a label with no leading or trailing whitespace, no two adjacent
whitespace characters (runs collapsed), and title-case letters; in
particular both "Maharashtra" and "MAHARASHTRA " map to "Maharashtra". -/
theorem normalize_state_canonicalizes (s : String) :
    (headNotWS (normalize_state (Cell.str s)).toList = true
      ∧ lastNotWS (normalize_state (Cell.str s)).toList = true
      ∧ noDoubleWS (normalize_state (Cell.str s)).toList = true
      ∧ isTitled (normalize_state (Cell.str s)).toList = true)
    ∧ normalize_state (Cell.str "Maharashtra") = "Maharashtra"
    ∧ normalize_state (Cell.str "MAHARASHTRA ") = "Maharashtra" := by
  have e : (normalize_state (Cell.str s)).toList
      = pyTitle (collapseWS (pyStripList s.toList)) := rfl
  refine ⟨⟨?_, ?_, ?_, ?_⟩, by decide, by decide⟩
  · rw [e, pyTitle, titleGo_headNotWS]
    exact collapseGo_false_headNotWS _ (pyStrip_head _)
  · rw [e, pyTitle, titleGo_lastNotWS]
    exact collapseGo_lastNotWS _ false (pyStrip_last _)
  · rw [e, pyTitle, titleGo_noDoubleWS]
    exact collapseGo_noDoubleWS _ false
  · rw [e]
    exact titleGo_titled _ false

lemma astypeIntPairs_mem (l : List (List Cell)) (yi : ℕ)
    (ps : List (List Cell × ℤ)) (h : astypeIntPairs l yi = some ps) :
    ∀ p ∈ ps, p.1 ∈ l := by
  induction l generalizing ps with
  | nil =>
    simp only [astypeIntPairs, Option.some.injEq] at h
    subst h
    intro p hp
    cases hp
  | cons r t ih =>
    simp only [astypeIntPairs] at h
    cases hf : fvalToIntTrunc (cellFVal (cellAt r yi)) with
    | none => rw [hf] at h; exact absurd h (by simp)
    | some y =>
      rw [hf] at h
      cases ht : astypeIntPairs t yi with
      | none => rw [ht] at h; exact absurd h (by simp)
      | some rest =>
        rw [ht] at h
        simp only [Option.map_some', Option.some.injEq] at h
        subst h
        intro p hp
        rcases List.mem_cons.mp hp with h1 | h1
        · subst h1; exact List.mem_cons_self _ _
        · exact List.mem_cons_of_mem _ (ih rest ht p h1)

lemma finalizeRecs_values_notna (src : String) (d : DF) (recs : List Rec)
    (h : finalizeRecs src d = some recs) :
    ∀ r ∈ recs, r.value.notna = true := by
  simp only [finalizeRecs] at h
  split at h
  · exact absurd h (by simp)
  · split at h
    · exact absurd h (by simp)
    · split at h
      · exact absurd h (by simp)
      next pairs hpairs =>
        simp only [Option.some.injEq] at h
        subst h
        intro r hr
        obtain ⟨p, hp, hpr⟩ := List.mem_map.mp hr
        have hmem := astypeIntPairs_mem _ _ _ hpairs p hp
        have hfilter := List.of_mem_filter hmem
        have hv : (cellFVal (cellAt p.1 (colIdx d "value"))).notna = true := by
          simp only [Bool.and_eq_true] at hfilter
          exact hfilter.2
        rw [← hpr]
        exact hv

/-- C3 counterexample: a long-format table with the year 5 and an infinite
value survives normalization unchanged — the output record has a year that
is not a 4-digit integer and a value that is not finite. -/
theorem process_all_record_counterexample :
    processFile "f" ⟨["state", "year", "value"],
        [[Cell.str "A", Cell.fv (FVal.fin 5), Cell.fv (FVal.fin 7)],
         [Cell.str "B", Cell.fv (FVal.fin 2001), Cell.fv FVal.pinf]]⟩
      = some [⟨"A", 5, FVal.fin 7, "f"⟩, ⟨"B", 2001, FVal.pinf, "f"⟩]
    ∧ ¬ (1000 ≤ (5 : ℤ) ∧ (5 : ℤ) ≤ 9999)
    ∧ FVal.pinf.isFinite = false := by
  refine ⟨by rfl, by decide, rfl⟩

/-- C3 amended: every record produced by the per-file normalization body of
`process_all` has a non-NaN (non-missing) value and an integer year; the
year need not have 4 digits, and infinite values are not excluded. -/
theorem processFile_values_not_nan (src : String) (df : DF) (recs : List Rec)
    (h : processFile src df = some recs) :
    ∀ r ∈ recs, r.value.notna = true := by
  simp only [processFile] at h
  repeat' split at h
  all_goals try exact absurd h (by simp)
  all_goals exact finalizeRecs_values_notna _ _ recs h

/-- Witness for C3 amended: the amended theorem applied at the concrete
counterexample table. -/
theorem processFile_values_not_nan_witness :
    (Rec.mk "A" 5 (FVal.fin 7) "f").value.notna = true :=
  processFile_values_not_nan "f"
    ⟨["state", "year", "value"],
      [[Cell.str "A", Cell.fv (FVal.fin 5), Cell.fv (FVal.fin 7)],
       [Cell.str "B", Cell.fv (FVal.fin 2001), Cell.fv FVal.pinf]]⟩
    [⟨"A", 5, FVal.fin 7, "f"⟩, ⟨"B", 2001, FVal.pinf, "f"⟩] rfl
    (Rec.mk "A" 5 (FVal.fin 7) "f") (by decide)

/-- C9 counterexample: on a table whose only numeric column is the year
candidate itself, the fallback detection assigns the label "year" to both
the year role and the value role, and `try_make_long` then fails with a
key error (the double rename removed the year column). -/
theorem fallback_roles_collision_counterexample :
    fallbackYearCand ["state", "year"] = some "year"
    ∧ fallbackValueCand ⟨["state", "year"], [[Cell.str "A", Cell.fv (FVal.fin 1)]]⟩
        (some "year") = some "year"
    ∧ try_make_long ⟨["state", "year"], [[Cell.str "A", Cell.fv (FVal.fin 1)]]⟩
        = Except.error "KeyError: year" :=
  ⟨rfl, rfl, rfl⟩

/-- C9 amended: in the fallback role detection of `try_make_long`, the year
and value candidates are distinct labels whenever any numeric column other
than the year candidate exists; only in the degenerate case where the year
candidate is the only numeric column do both roles claim the same label
(and the table then yields an error instead of records). -/
theorem fallback_roles_distinct (df0 : DF) (yc vc : String)
    (hy : fallbackYearCand df0.header = some yc)
    (hv : fallbackValueCand df0 (some yc) = some vc)
    (hex : ∃ c ∈ df0.header, isNumericCol df0 c = true ∧ c ≠ yc) :
    vc ≠ yc := by
  obtain ⟨c, hc, hnum, hne⟩ := hex
  unfold fallbackValueCand at hv
  simp only [Option.some.injEq] at hv
  have hmem : c ∈ df0.header.filter fun c => isNumericCol df0 c :=
    List.mem_filter.mpr ⟨hc, hnum⟩
  have hpred : (fun c => if yc = c then false else true) c = true := by
    simp [Ne.symm hne]
  cases hfind : (df0.header.filter fun c => isNumericCol df0 c).find?
      (fun c => if yc = c then false else true) with
  | none =>
    exact absurd hpred (by simpa using List.find?_eq_none.mp hfind c hmem)
  | some w =>
    rw [hfind] at hv
    have hw := List.find?_some hfind
    have hwy : ¬ (yc = w) := by
      by_contra heq
      rw [heq] at hw
      simp at hw
    have hvw : w = vc := by simpa using hv
    rw [← hvw]
    exact fun e => hwy e.symm

/-- Witness for C9 amended: with a third, numeric, non-year column the two
fallback roles resolve to distinct labels. -/
theorem fallback_roles_distinct_witness : ("val" : String) ≠ "year" :=
  fallback_roles_distinct
    ⟨["state", "year", "val"],
      [[Cell.str "A", Cell.fv (FVal.fin 1), Cell.fv (FVal.fin 2)]]⟩
    "year" "val" rfl rfl ⟨"val", by simp, rfl, by decide⟩

/-- C7 counterexample: when the single identifier column is named "value",
the pandas melt raises (value_name collides with an existing column), the
exception propagates out of `try_make_long`, and the file is skipped —
zero output rows instead of 2 per input row. -/
theorem try_make_long_value_id_counterexample :
    try_make_long ⟨["value", "2001", "2002"],
        [[Cell.str "A", Cell.fv (FVal.fin 1), Cell.fv (FVal.fin 2)]]⟩
      = Except.error "value_name (value) cannot match an element in the DataFrame columns."
    ∧ processFile "f" ⟨["value", "2001", "2002"],
        [[Cell.str "A", Cell.fv (FVal.fin 1), Cell.fv (FVal.fin 2)]]⟩ = none :=
  ⟨rfl, rfl⟩



/-- C7 amended: on a wide table with exactly the year columns "2001" and
"2002" plus one identifier column whose standardized label is neither
"year" nor "value" and is not itself year-like, `try_make_long` produces
exactly 2 output rows per input row, with the year equal to the integer
value of the year column the row came from and the value taken from that
column's cell. -/
theorem try_make_long_wide_table (id : String) (rows : List (List Cell))
    (h1 : stdLabel id ≠ "year") (h2 : stdLabel id ≠ "value")
    (h3 : isYearLabel (stdLabel id) = false) :
    ∃ stFn : List Cell → Cell, ∃ out : DF,
      try_make_long ⟨[id, "2001", "2002"], rows⟩ = Except.ok out
      ∧ out.header = ["state", "year", "value"]
      ∧ out.rows = (rows.map fun r => [stFn r, Cell.fv (FVal.fin ((2001 : ℕ) : ℚ)), cellAt r 1])
          ++ (rows.map fun r => [stFn r, Cell.fv (FVal.fin ((2002 : ℕ) : ℚ)), cellAt r 2])
      ∧ out.rows.length = 2 * rows.length := by
  have e1 : standardize_columns ⟨[id, "2001", "2002"], rows⟩
      = ⟨[stdLabel id, "2001", "2002"], rows⟩ := rfl
  have hcy : ([stdLabel id, "2001", "2002"].contains "year") = false := by
    simp [List.contains, List.elem_cons]
    exact fun e => h1 e.symm
  have hdet : detect_year_columns [stdLabel id, "2001", "2002"] = ["2001", "2002"] := by
    simp [detect_year_columns, List.filter, h3,
      (show isYearLabel "2001" = true from rfl), (show isYearLabel "2002" = true from rfl)]
  obtain ⟨stFn, hw⟩ := tmlWide_std (stdLabel id) rows h1 h2 h3
  refine ⟨stFn, ⟨["state", "year", "value"],
      (rows.map fun r => [stFn r, Cell.fv (FVal.fin ((2001 : ℕ) : ℚ)), cellAt r 1])
        ++ (rows.map fun r => [stFn r, Cell.fv (FVal.fin ((2002 : ℕ) : ℚ)), cellAt r 2])⟩,
    ?_, rfl, rfl, ?_⟩
  · simp only [try_make_long, e1, hcy, Bool.false_eq_true, if_false, Bool.false_and, hdet,
      List.isEmpty_cons, not_false_iff, if_true]
    exact hw
  · simp only [List.length_append, List.length_map]
    omega

/-- Witness for C7 amended: the wide-table theorem at a concrete two-row
table with identifier column "State". -/
theorem try_make_long_wide_table_witness :
    ∃ stFn : List Cell → Cell, ∃ out : DF,
      try_make_long ⟨["State", "2001", "2002"],
          [[Cell.str "A", Cell.fv (FVal.fin 1), Cell.fv (FVal.fin 2)],
           [Cell.str "B", Cell.fv (FVal.fin 3), Cell.fv (FVal.fin 4)]]⟩ = Except.ok out
      ∧ out.header = ["state", "year", "value"]
      ∧ out.rows = ([[Cell.str "A", Cell.fv (FVal.fin 1), Cell.fv (FVal.fin 2)],
            [Cell.str "B", Cell.fv (FVal.fin 3), Cell.fv (FVal.fin 4)]].map
              fun r => [stFn r, Cell.fv (FVal.fin ((2001 : ℕ) : ℚ)), cellAt r 1])
          ++ ([[Cell.str "A", Cell.fv (FVal.fin 1), Cell.fv (FVal.fin 2)],
            [Cell.str "B", Cell.fv (FVal.fin 3), Cell.fv (FVal.fin 4)]].map
              fun r => [stFn r, Cell.fv (FVal.fin ((2002 : ℕ) : ℚ)), cellAt r 2])
      ∧ out.rows.length = 2 * ([[Cell.str "A", Cell.fv (FVal.fin 1), Cell.fv (FVal.fin 2)],
            [Cell.str "B", Cell.fv (FVal.fin 3), Cell.fv (FVal.fin 4)]] : List (List Cell)).length :=
  try_make_long_wide_table "State"
    [[Cell.str "A", Cell.fv (FVal.fin 1), Cell.fv (FVal.fin 2)],
     [Cell.str "B", Cell.fv (FVal.fin 3), Cell.fv (FVal.fin 4)]]
    (by decide) (by decide) (by decide)

/-- C10: duplicate rows for the same (state, year) are combined per query:
the single-state series is the per-year MEAN of the matching records, the
aggregate series is the per-year SUM across all states; both series are
sorted by strictly ascending year. -/
theorem prepare_series_mean_sum (recs : List PRec) (q : String)
    (hq : q ≠ "") (hnb : is_all_states_label q = false)
    (hexact : recs.filter (fun r => lcStr (stripStr r.state) = lcStr (stripStr q)) ≠ []) :
    (∀ ser, prepare_series recs none true = Except.ok ser →
       List.Chain' (· < ·) (ser.map Prod.fst)
       ∧ ∀ y v, ((y, v) ∈ ser ↔
           (∃ r ∈ recs, r.year = y)
             ∧ v = ((recs.filter fun r => r.year = y).map PRec.value).sum))
    ∧ (∀ ser, prepare_series recs (some q) false = Except.ok ser →
       List.Chain' (· < ·) (ser.map Prod.fst)
       ∧ ∀ y v, ((y, v) ∈ ser ↔
           (∃ r ∈ recs, lcStr (stripStr r.state) = lcStr (stripStr q) ∧ r.year = y)
             ∧ v = (((recs.filter fun r => lcStr (stripStr r.state) = lcStr (stripStr q)).filter
                   fun r => r.year = y).map PRec.value).sum
               / (((recs.filter fun r => lcStr (stripStr r.state) = lcStr (stripStr q)).filter
                   fun r => r.year = y).length : ℚ))) := by
  constructor
  · intro ser hs
    simp only [prepare_series, Bool.true_or, if_true] at hs
    split at hs
    · exact absurd hs (by simp)
    · have hser : ser = (groupYears (recs.map fun r => { r with state := stripStr r.state })).map
          (fun y => (y, (((recs.map fun r => { r with state := stripStr r.state }).filter
            fun r => r.year = y).map PRec.value).sum)) := by
        simpa using hs.symm
      subst hser
      constructor
      · exact chain_map_fst_pair _ _ (by rw [strip_groupYears]; exact groupYears_sorted recs)
      · intro y v
        rw [mem_map_pair, strip_groupYears, groupYears_mem, strip_filter_year]
  · intro ser hs
    simp only [prepare_series, hnb, Bool.false_or, Bool.false_eq_true, if_false, hq] at hs
    have hne : ((recs.map fun r => { r with state := stripStr r.state }).filter
        fun r => lcStr r.state = lcStr (stripStr q)).isEmpty = false := by
      rw [strip_filter_state]
      simpa using hexact
    simp only [hne, Bool.false_eq_true, if_false] at hs
    split at hs
    · exact absurd hs (by simp)
    · have hser : ser = (groupYears ((recs.map fun r => { r with state := stripStr r.state }).filter
          fun r => lcStr r.state = lcStr (stripStr q))).map
          (fun y => (y, ((((recs.map fun r => { r with state := stripStr r.state }).filter
              fun r => lcStr r.state = lcStr (stripStr q)).filter
                fun r => r.year = y).map PRec.value).sum
            / ((((recs.map fun r => { r with state := stripStr r.state }).filter
              fun r => lcStr r.state = lcStr (stripStr q)).filter
                fun r => r.year = y).length : ℚ))) := by
        simpa using hs.symm
      subst hser
      rw [strip_filter_state]
      constructor
      · exact chain_map_fst_pair _ _ (by rw [strip_groupYears]; exact groupYears_sorted _)
      · intro y v
        rw [mem_map_pair, strip_groupYears, groupYears_mem, strip_filter_year,
          strip_filter_year_len]
        simp [List.mem_filter, and_assoc]

/-- Witness for C10: the theorem applied at a concrete record set with a
duplicate (state, year) pair and a non-empty exact match for "a". -/
theorem prepare_series_mean_sum_witness :
    (∀ ser, prepare_series [⟨"A", 2000, 1⟩, ⟨"A", 2000, 3⟩, ⟨"B", 2000, 5⟩] none true
        = Except.ok ser →
       List.Chain' (· < ·) (ser.map Prod.fst)
       ∧ ∀ y v, ((y, v) ∈ ser ↔
           (∃ r ∈ [PRec.mk "A" 2000 1, PRec.mk "A" 2000 3, PRec.mk "B" 2000 5], r.year = y)
             ∧ v = (([PRec.mk "A" 2000 1, PRec.mk "A" 2000 3, PRec.mk "B" 2000 5].filter
                 fun r => r.year = y).map PRec.value).sum))
    ∧ (∀ ser, prepare_series [⟨"A", 2000, 1⟩, ⟨"A", 2000, 3⟩, ⟨"B", 2000, 5⟩] (some "a") false
        = Except.ok ser →
       List.Chain' (· < ·) (ser.map Prod.fst)
       ∧ ∀ y v, ((y, v) ∈ ser ↔
           (∃ r ∈ [PRec.mk "A" 2000 1, PRec.mk "A" 2000 3, PRec.mk "B" 2000 5],
               lcStr (stripStr r.state) = lcStr (stripStr "a") ∧ r.year = y)
             ∧ v = ((([PRec.mk "A" 2000 1, PRec.mk "A" 2000 3, PRec.mk "B" 2000 5].filter
                   fun r => lcStr (stripStr r.state) = lcStr (stripStr "a")).filter
                   fun r => r.year = y).map PRec.value).sum
               / ((([PRec.mk "A" 2000 1, PRec.mk "A" 2000 3, PRec.mk "B" 2000 5].filter
                   fun r => lcStr (stripStr r.state) = lcStr (stripStr "a")).filter
                   fun r => r.year = y).length : ℚ))) :=
  prepare_series_mean_sum [⟨"A", 2000, 1⟩, ⟨"A", 2000, 3⟩, ⟨"B", 2000, 5⟩] "a"
    (by decide) (by decide) (by decide)

end SmartFarm
